import Mathlib

/-!
Verification of the SOCKS4/SOCKS4a/SOCKS5 protocol library (package `socks`).

Byte streams are modelled as `List Nat` (each element a byte value); a
decoder consumes a prefix of the list and the end of the list models the
end of the stream.  Decoders return the number of bytes counted by the Go
code together with either a typed error or the decoded message, mirroring
the `(int64, error)` pair of `io.ReaderFrom`.  Encoders produce the byte
list that the Go `io.WriterTo` implementations write to an error-free
sink; for SOCKS4 requests a sink with bounded capacity is also modelled
so that write-error propagation can be stated.
-/

namespace Socks

/-- Error values of the library and of the Go `io` package, one constructor
per distinct Go error value that the modelled code can produce.  `eof`
stands for `io.EOF` and `unexpectedEOF` for `io.ErrUnexpectedEOF`. -/
inductive GoErr where
  | eof
  | unexpectedEOF
  | writeErr
  | invalidVersion
  | invalidCommand
  | invalidIP
  | invalidDomain
  | invalidResponseVersion
  | invalidResponseCode
  | invalidHandshakeVersion
  | tooManyMethods
  | noMethodsProvided
  | invalidHandshakeReplyVersion
  | s5InvalidVersion
  | s5InvalidCommand
  | s5InvalidAddr
  | s5InvalidDomain
  | s5InvalidRSV
  | invalidReplyVersion
  | invalidReplyRSV
  | invalidReplyAddr
  | invalidReplyDomain
  | invalidUserPassVersion
  | emptyUserPassUsername
  | emptyUserPassPassword
  | userPassTooLong
  | invalidUserPassReplyVersion
  | invalidGSSAPIVersion
  | emptyGSSAPIToken
  | gssapiTokenTooLong
  | invalidGSSAPIReplyVersion
  | emptyGSSAPIReplyToken
  | gssapiReplyTooLong
  | invalidUDPReserved
  | unsupportedFrag
  | invalidUDPAddrType
  | invalidUDPDomain
  | missingUDPData
  deriving DecidableEq, Repr

/-- `io.ReadFull` error when only `got` of the requested bytes were
available: `io.EOF` when nothing was read, `io.ErrUnexpectedEOF` otherwise. -/
def eofErr (got : Nat) : GoErr :=
  if got = 0 then GoErr.eof else GoErr.unexpectedEOF

/-- `io.ReadFull n`: take exactly `n` bytes off a stream, or fail when the
stream is shorter. -/
def readN (n : Nat) (S : List Nat) : Option (List Nat × List Nat) :=
  if n ≤ S.length then some (S.take n, S.drop n) else none

theorem readN_append (a b : List Nat) : readN a.length (a ++ b) = some (a, b) := by
  simp [readN]

theorem readN_append_of_len {a : List Nat} {n : Nat} (h : a.length = n) (b : List Nat) :
    readN n (a ++ b) = some (a, b) := by
  subst h; exact readN_append a b

theorem readN_short {n : Nat} {S : List Nat} (h : S.length < n) : readN n S = none := by
  simp [readN]; omega

/-- Big-endian 16-bit encoding, as produced by `binary.BigEndian.PutUint16`. -/
def be16 (p : Nat) : List Nat := [p / 256 % 256, p % 256]

/-! ## SOCKS4 constants (`socks4` package) -/

def socks4Version : Nat := 4
def cmdConnect : Nat := 1
def cmdBind : Nat := 2
def defaultMaxUserIDLen : Nat := 256
def defaultMaxDomainLen : Nat := 256
def repGranted : Nat := 90
def repRejected : Nat := 91
def repIdentFailed : Nat := 92
def repUserIDMismatch : Nat := 93

/-! ## SOCKS4 request (`socks4/request.go`) -/

/-- `socks4.Request`: VN, CD, DSTPORT, DSTIP (four bytes), USERID, DOMAIN.
Strings are byte lists; the IPv4 address is kept as its four bytes, as the
Go `[4]byte` field stores it. -/
structure S4Request where
  version : Nat
  command : Nat
  port : Nat
  ip0 : Nat
  ip1 : Nat
  ip2 : Nat
  ip3 : Nat
  userID : List Nat
  domain : List Nat
  deriving DecidableEq, Repr

/-- `Request.IsSOCKS4a`: IP of the form 0.0.0.x with x ≠ 0. -/
def isSOCKS4a (r : S4Request) : Bool :=
  r.ip0 == 0 && r.ip1 == 0 && r.ip2 == 0 && !(r.ip3 == 0)

/-- `Request.IsSOCKS4`: negation of the 0.0.0.x-with-x≠0 test. -/
def isSOCKS4 (r : S4Request) : Bool :=
  !(r.ip0 == 0 && r.ip1 == 0 && r.ip2 == 0 && !(r.ip3 == 0))

/-- `Request.ValidateHeader`.  The `To4` conversion of a `[4]byte` value
never fails, so only the version, command and 0.0.0.0-for-CONNECT checks
remain. -/
def s4ValidateHeader (r : S4Request) : Option GoErr :=
  if r.version ≠ socks4Version then some GoErr.invalidVersion
  else if r.command ≠ cmdConnect ∧ r.command ≠ cmdBind then some GoErr.invalidCommand
  else if (r.ip0 = 0 ∧ r.ip1 = 0 ∧ r.ip2 = 0 ∧ r.ip3 = 0) ∧ r.command = cmdConnect then
    some GoErr.invalidIP
  else none

/-- `Request.ValidateDomain`. -/
def s4ValidateDomain (r : S4Request) : Option GoErr :=
  if isSOCKS4a r then
    if r.domain.length = 0 then some GoErr.invalidDomain else none
  else
    if r.domain.length > 0 then some GoErr.invalidDomain else none

/-- `Request.Validate`. -/
def s4Validate (r : S4Request) : Option GoErr :=
  match s4ValidateHeader r with
  | some e => some e
  | none => s4ValidateDomain r

/-- `writeCString`: the string bytes followed by a NUL terminator (the Go
code skips the string write when the string is empty, which produces the
same bytes). -/
def writeCString (s : List Nat) : List Nat := s ++ [0]

/-- `Request.WriteTo` on an error-free sink: header, NUL-terminated
USERID, and (for SOCKS4a requests) NUL-terminated DOMAIN. -/
def s4EncodeBytes (r : S4Request) : List Nat :=
  [r.version, r.command, r.port / 256 % 256, r.port % 256, r.ip0, r.ip1, r.ip2, r.ip3]
    ++ writeCString r.userID
    ++ (if isSOCKS4a r then writeCString r.domain else [])

/-! ### Bounded NUL-terminated string scanning

`Request.ReadUserIDAndDomain` reads each string through a pooled
`bufio.Reader` (buffer size 256) whose underlying reader is an
`internal.LimitedReader` initialised with `maxLen+1`.  `readStrF` models
one `bufio.Reader.ReadString(0x00)` call: `B` is the bytes already
buffered, `N` the remaining byte budget of the limited reader, `S` the
bytes the underlying stream can still deliver and `acc` the fragments
collected so far.  Each step either finds the terminator in the buffer,
hits the budget or the end of the stream (both of which the Go readers
report as `io.EOF`), or transfers up to `256 - |buffer|` fresh bytes
(dumping a full 256-byte buffer as a fragment first, as
`collectFragments` does).  The result is the collected bytes (terminator
included on success), the error, the bytes left in the buffer and the
bytes left in the stream.  The fuel is an upper bound on the recursion
depth; every step consumes at least one stream byte, so `|S| + 1` always
suffices. -/
def readStrF : Nat → List Nat → Nat → List Nat → List Nat →
    List Nat × Option GoErr × List Nat × List Nat
  | 0, B, _, S, acc => (acc ++ B, some GoErr.eof, [], S)
  | fuel + 1, B, N, S, acc =>
    match B.findIdx? (fun b => b == 0) with
    | some i => (acc ++ B.take (i + 1), none, B.drop (i + 1), S)
    | none =>
      if N = 0 ∨ S = [] then (acc ++ B, some GoErr.eof, [], S)
      else
        let dump := 256 ≤ B.length
        let B2 := if dump then [] else B
        let acc2 := if dump then acc ++ B else acc
        let g := min (256 - B2.length) (min N S.length)
        readStrF fuel (B2 ++ S.take g) (N - g) (S.drop g) acc2

/-- `bufio.Reader.ReadString(0x00)` over a limited reader with budget `N`,
starting with buffered bytes `B` and stream `S`. -/
def readStringGo (B : List Nat) (N : Nat) (S : List Nat) : List Nat × Option GoErr × List Nat × List Nat :=
  readStrF (S.length + 1) B N S []

/-- `Request.ReadUserIDAndDomain`: scan USERID (budget `maxU+1`), then,
for SOCKS4a requests, scan DOMAIN (budget `maxD+1`) continuing with the
bytes the `bufio.Reader` still buffers.  The returned count adds the
lengths of the strings `ReadString` returned, as the Go code does. -/
def s4ReadUserIDAndDomain (r : S4Request) (S : List Nat) (maxU maxD : Nat) :
    Nat × Except GoErr S4Request :=
  match readStringGo [] (maxU + 1) S with
  | (col1, some e, _, _) => (col1.length, Except.error e)
  | (col1, none, buf1, src1) =>
    let r1 := { r with userID := col1.dropLast }
    if isSOCKS4a r1 then
      match readStringGo buf1 (maxD + 1) src1 with
      | (col2, some e, _, _) => (col1.length + col2.length, Except.error e)
      | (col2, none, _, _) =>
        (col1.length + col2.length, Except.ok { r1 with domain := col2.dropLast })
    else
      (col1.length, Except.ok r1)

/-- `Request.ReadHeaderFrom`: read the 8 fixed bytes, assign the fields
and validate the header. -/
def s4ReadHeaderFrom (S : List Nat) : Nat × Except GoErr S4Request :=
  match readN 8 S with
  | none => (S.length, Except.error (eofErr S.length))
  | some (hdr, _) =>
    let r : S4Request :=
      { version := hdr.getD 0 0, command := hdr.getD 1 0,
        port := hdr.getD 2 0 * 256 + hdr.getD 3 0,
        ip0 := hdr.getD 4 0, ip1 := hdr.getD 5 0, ip2 := hdr.getD 6 0, ip3 := hdr.getD 7 0,
        userID := [], domain := [] }
    (8, match s4ValidateHeader r with
        | some e => Except.error e
        | none => Except.ok r)

/-- `Request.ReadFromWithLimits`. -/
def s4ReadFromWithLimits (S : List Nat) (maxU maxD : Nat) : Nat × Except GoErr S4Request :=
  match s4ReadHeaderFrom S with
  | (n1, Except.error e) => (n1, Except.error e)
  | (n1, Except.ok r) =>
    match s4ReadUserIDAndDomain r (S.drop 8) maxU maxD with
    | (n2, res) => (n1 + n2, res)

/-- `Request.ReadFrom`: `ReadFromWithLimits` with the default limits. -/
def s4ReadFrom (S : List Nat) : Nat × Except GoErr S4Request :=
  s4ReadFromWithLimits S defaultMaxUserIDLen defaultMaxDomainLen

theorem fi_app (u t : List Nat) (hu : (0:Nat) ∉ u) :
    (u ++ 0 :: t).findIdx? (fun b => b == 0) = some u.length := by
  induction u with
  | nil => simp
  | cons a u ih =>
    have ha : (a == 0) = false := by
      simp only [beq_eq_false_iff_ne, ne_eq]
      intro h; exact hu (h ▸ List.mem_cons_self a u)
    rw [List.cons_append, List.findIdx?_cons, ha, if_neg Bool.false_ne_true,
      List.findIdx?_start_succ, ih (fun h => hu (List.mem_cons_of_mem a h))]
    simp [Nat.add_comm]

theorem fi_none (u : List Nat) (hu : (0:Nat) ∉ u) :
    u.findIdx? (fun b => b == 0) = none := by
  rw [List.findIdx?_eq_none_iff]
  intro x hx
  simp only [beq_eq_false_iff_ne, ne_eq]
  intro h; exact hu (h ▸ hx)

/-- If the terminator is reachable — the first NUL of the combined
buffered-plus-stream bytes lies within the byte budget — then the scan
succeeds, collects exactly the bytes up to and including that NUL, and
the leftover buffer and stream together form the remainder. -/
theorem readStrF_found : ∀ fuel B N S acc u tail, S.length < fuel →
    B ++ S = u ++ 0 :: tail → (0:Nat) ∉ u → u.length < B.length + N →
    ∃ Bl Sl, readStrF fuel B N S acc = (acc ++ (u ++ [0]), none, Bl, Sl) ∧
      Bl ++ Sl = tail ∧ Sl.length ≤ S.length := by
  intro fuel
  induction fuel with
  | zero => intro B N S acc u tail h; omega
  | succ fuel ih =>
    intro B N S acc u tail hf hBS hu hlen
    by_cases hub : u.length < B.length
    · -- the NUL is already inside the buffer
      have hBtake : B.take (u.length + 1) = u ++ [0] := by
        have h1 : (B ++ S).take (u.length + 1) = B.take (u.length + 1) :=
          List.take_append_of_le_length (by omega)
        have h2 : (u ++ 0 :: tail).take (u.length + 1)
            = u.take (u.length + 1) ++ (0 :: tail).take (u.length + 1 - u.length) :=
          List.take_append_eq_append_take
        rw [hBS] at h1
        rw [h2] at h1
        simpa [List.take_of_length_le (by omega : u.length ≤ u.length + 1),
          Nat.add_sub_cancel_left] using h1.symm
      have hBdecomp : B = (u ++ [0]) ++ B.drop (u.length + 1) := by
        conv_lhs => rw [← List.take_append_drop (u.length + 1) B, hBtake]
      have hfi : B.findIdx? (fun b => b == 0) = some u.length := by
        rw [hBdecomp]
        simpa using fi_app u (B.drop (u.length + 1)) hu
      refine ⟨B.drop (u.length + 1), S, ?_, ?_, le_refl _⟩
      · simp only [readStrF, hfi, hBtake]
      · have h3 := hBS
        rw [hBdecomp] at h3
        simpa using h3
    · -- the buffer is NUL-free: refill from the stream
      have hkB : B = u.take B.length := by
        have h1 : (B ++ S).take B.length = B := List.take_left ..
        rw [hBS] at h1
        rw [List.take_append_of_le_length (by omega)] at h1
        exact h1.symm
      have hBfree : (0:Nat) ∉ B := by
        rw [hkB]; intro h; exact hu (List.take_subset _ _ h)
      have hfi : B.findIdx? (fun b => b == 0) = none := fi_none B hBfree
      have hN : N ≠ 0 := by omega
      have hS : S ≠ [] := by
        intro h
        rw [h, List.append_nil] at hBS
        exact hBfree (hBS ▸ List.mem_append_right u (List.mem_cons_self 0 tail))
      have hcond : ¬(N = 0 ∨ S = []) := by push_neg; exact ⟨hN, hS⟩
      have hSne : S.length ≠ 0 := fun h => hS (List.length_eq_zero.mp h)
      by_cases hdump : 256 ≤ B.length
      · -- dump the full buffer as a fragment, then refill
        set g := min 256 (min N S.length) with hg
        have hg1 : 1 ≤ g := by omega
        have hgS : g ≤ S.length := by omega
        have hgN : g ≤ N := by omega
        have hBu : B.length ≤ u.length := by omega
        have hSu : S = u.drop B.length ++ 0 :: tail := by
          have h1 : (B ++ S).drop B.length = S := List.drop_left ..
          rw [hBS] at h1
          rw [List.drop_append_of_le_length (by omega)] at h1
          exact h1.symm
        have hfree : (0:Nat) ∉ u.drop B.length :=
          fun h => hu (List.drop_subset _ _ h)
        have hulen : (u.drop B.length).length = u.length - B.length :=
          List.length_drop ..
        obtain ⟨Bl, Sl, hrun, hrem, hle⟩ :=
          ih ([] ++ S.take g) (N - g) (S.drop g) (acc ++ B) (u.drop B.length) tail
            (by have := List.length_drop g S; omega)
            (by rw [List.nil_append, List.take_append_drop, hSu])
            hfree
            (by
              simp only [List.nil_append, List.length_append, List.length_take, hulen]
              omega)
        have hBu2 : B ++ u.drop B.length = u := by
          nth_rewrite 1 [hkB]
          exact List.take_append_drop B.length u
        refine ⟨Bl, Sl, ?_, hrem, by have := List.length_drop g S; omega⟩
        simp only [readStrF, hfi, if_neg hcond, if_pos hdump, List.length_nil,
          Nat.sub_zero, List.nil_append]
        rw [show (256 : Nat) ⊓ (N ⊓ S.length) = g by rw [hg]]
        rw [List.nil_append] at hrun
        rw [hrun]
        rw [show acc ++ B ++ (u.drop B.length ++ [0]) = acc ++ (u ++ [0]) by
          rw [← hBu2]; simp [List.append_assoc]]
      · -- no dump: extend the buffer
        set g := min (256 - B.length) (min N S.length) with hg
        have hg1 : 1 ≤ g := by omega
        have hgS : g ≤ S.length := by omega
        have hgN : g ≤ N := by omega
        obtain ⟨Bl, Sl, hrun, hrem, hle⟩ :=
          ih (B ++ S.take g) (N - g) (S.drop g) acc u tail
            (by have := List.length_drop g S; omega)
            (by rw [List.append_assoc, List.take_append_drop]; exact hBS)
            hu
            (by simp only [List.length_append, List.length_take]; omega)
        refine ⟨Bl, Sl, ?_, hrem, by have := List.length_drop g S; omega⟩
        simp only [readStrF, hfi, if_neg hcond, if_neg hdump]
        rw [show (256 - B.length) ⊓ (N ⊓ S.length) = g by rw [hg]]
        exact hrun

/-- The only error a bounded `ReadString` scan can produce is `io.EOF`:
both budget exhaustion (the `LimitedReader` reporting EOF) and the end of
the underlying stream surface as the same error value. -/
theorem readStrF_err_eof : ∀ fuel B N S acc col e Bl Sl,
    readStrF fuel B N S acc = (col, some e, Bl, Sl) → e = GoErr.eof := by
  intro fuel
  induction fuel with
  | zero =>
    intro B N S acc col e Bl Sl h
    simp only [readStrF, Prod.mk.injEq] at h
    exact (Option.some_inj.mp h.2.1).symm
  | succ fuel ih =>
    intro B N S acc col e Bl Sl h
    rw [readStrF] at h
    cases hfi : B.findIdx? (fun b => b == 0) with
    | some i => rw [hfi] at h; simp at h
    | none =>
      rw [hfi] at h
      by_cases hcond : N = 0 ∨ S = []
      · rw [if_pos hcond] at h
        simp only [Prod.mk.injEq] at h
        exact (Option.some_inj.mp h.2.1).symm
      · rw [if_neg hcond] at h
        exact ih _ _ _ _ _ _ _ _ h

/-- The bytes collected by one scan never exceed the previously collected
fragments plus the already-buffered bytes plus the byte budget. -/
theorem readStrF_col_len : ∀ fuel B N S acc col err Bl Sl,
    readStrF fuel B N S acc = (col, err, Bl, Sl) →
    col.length ≤ acc.length + B.length + N := by
  intro fuel
  induction fuel with
  | zero =>
    intro B N S acc col err Bl Sl h
    simp only [readStrF, Prod.mk.injEq] at h
    rw [← h.1]
    simp only [List.length_append]
    omega
  | succ fuel ih =>
    intro B N S acc col err Bl Sl h
    rw [readStrF] at h
    cases hfi : B.findIdx? (fun b => b == 0) with
    | some i =>
      rw [hfi] at h
      simp only [Prod.mk.injEq] at h
      rw [← h.1]
      simp only [List.length_append, List.length_take]
      omega
    | none =>
      rw [hfi] at h
      by_cases hcond : N = 0 ∨ S = []
      · rw [if_pos hcond] at h
        simp only [Prod.mk.injEq] at h
        rw [← h.1]
        simp only [List.length_append]
        omega
      · rw [if_neg hcond] at h
        by_cases hdump : 256 ≤ B.length
        · simp only [if_pos hdump] at h
          have h2 := ih _ _ _ _ _ _ _ _ h
          simp only [List.length_append, List.length_take, List.length_nil] at h2 ⊢
          omega
        · simp only [if_neg hdump] at h
          have h2 := ih _ _ _ _ _ _ _ _ h
          simp only [List.length_append, List.length_take] at h2 ⊢
          omega

/-- Canonical well-formedness of a SOCKS4 request: byte fields in range, a
header that passes `ValidateHeader`, NUL-free strings within the default
scan limits, and a domain consistent with the SOCKS4a address signal. -/
@[reducible] def S4RequestWF (r : S4Request) : Prop :=
  r.version = 4 ∧ (r.command = 1 ∨ r.command = 2) ∧ r.port < 65536 ∧
  r.ip0 < 256 ∧ r.ip1 < 256 ∧ r.ip2 < 256 ∧ r.ip3 < 256 ∧
  ¬(r.ip0 = 0 ∧ r.ip1 = 0 ∧ r.ip2 = 0 ∧ r.ip3 = 0 ∧ r.command = 1) ∧
  (0:Nat) ∉ r.userID ∧ r.userID.length ≤ 256 ∧
  (if isSOCKS4a r then (0:Nat) ∉ r.domain ∧ r.domain.length ≤ 256 else r.domain = [])

theorem s4_roundtrip (r : S4Request) (h : S4RequestWF r) :
    s4ReadFrom (s4EncodeBytes r) = ((s4EncodeBytes r).length, Except.ok r) := by
  obtain ⟨hv, hc, hp, hi0, hi1, hi2, hi3, hip, hu0, hulen, hdom⟩ := h
  set T : List Nat := if isSOCKS4a r then writeCString r.domain else [] with hT
  have hsplit : s4EncodeBytes r =
      [r.version, r.command, r.port / 256 % 256, r.port % 256, r.ip0, r.ip1, r.ip2, r.ip3]
        ++ (writeCString r.userID ++ T) := by
    simp [s4EncodeBytes, List.append_assoc]
  set rh : S4Request :=
    { version := r.version, command := r.command, port := r.port,
      ip0 := r.ip0, ip1 := r.ip1, ip2 := r.ip2, ip3 := r.ip3,
      userID := [], domain := [] } with hrh
  have hvh : s4ValidateHeader rh = none := by
    rw [s4ValidateHeader]
    rw [if_neg (by simp [hrh, hv, socks4Version])]
    rw [if_neg (by
      simp only [hrh, cmdConnect, cmdBind]
      rcases hc with h1 | h1 <;> simp [h1])]
    rw [if_neg (by
      simp only [hrh, cmdConnect]
      intro hx
      exact hip ⟨hx.1.1, hx.1.2.1, hx.1.2.2.1, hx.1.2.2.2, hx.2⟩)]
  have hhdr : s4ReadHeaderFrom (s4EncodeBytes r) = (8, Except.ok rh) := by
    rw [s4ReadHeaderFrom, hsplit, readN_append_of_len (by rfl)]
    have hport : r.port / 256 % 256 * 256 + r.port % 256 = r.port := by omega
    simp only [List.getD_cons_zero, List.getD_cons_succ, hport, ← hrh, hvh]
  have hrest : (s4EncodeBytes r).drop 8 = r.userID ++ 0 :: T := by
    rw [hsplit]
    rw [List.drop_append_of_le_length (by simp)]
    simp [writeCString, List.append_assoc]
  -- phase 1: scan the userID
  obtain ⟨Bl, Sl, hrun1, hrem1, hle1⟩ :=
    readStrF_found (((s4EncodeBytes r).drop 8).length + 1) [] (256 + 1)
      ((s4EncodeBytes r).drop 8) [] r.userID T
      (by omega) (by simpa using hrest) hu0 (by simp; omega)
  have hfield : s4ReadUserIDAndDomain rh ((s4EncodeBytes r).drop 8) 256 256 =
      (((s4EncodeBytes r).drop 8).length, Except.ok r) := by
    rw [s4ReadUserIDAndDomain]
    rw [show readStringGo [] (256 + 1) ((s4EncodeBytes r).drop 8)
        = (r.userID ++ [0], none, Bl, Sl) from by
      rw [readStringGo]; simpa using hrun1]
    simp only
    have hdl : (r.userID ++ [0]).dropLast = r.userID := by simp
    rw [hdl]
    have h4eq : isSOCKS4a { rh with userID := r.userID } = isSOCKS4a r := rfl
    rw [h4eq]
    by_cases h4a : isSOCKS4a r
    · obtain ⟨hd0, hdlen⟩ : (0:Nat) ∉ r.domain ∧ r.domain.length ≤ 256 := by
        rw [if_pos h4a] at hdom; exact hdom
      have hTd : T = r.domain ++ [0] := by rw [hT, if_pos h4a, writeCString]
      obtain ⟨Bl2, Sl2, hrun2, _, _⟩ :=
        readStrF_found (Sl.length + 1) Bl (256 + 1) Sl [] r.domain []
          (by omega) (by rw [hrem1, hTd]) hd0 (by omega)
      rw [if_pos h4a]
      rw [show readStringGo Bl (256 + 1) Sl = (r.domain ++ [0], none, Bl2, Sl2) from by
        rw [readStringGo]; simpa using hrun2]
    
      simp only
      have hdl2 : (r.domain ++ [0]).dropLast = r.domain := by simp
      rw [hdl2, hrest, hTd, Prod.mk.injEq]
      refine ⟨by simp [List.length_append]; omega, ?_⟩
      rfl
    · rw [if_neg h4a]
      have hd : r.domain = [] := by rw [if_neg h4a] at hdom; exact hdom
      have hTnil : T = [] := by rw [hT, if_neg h4a]
      rw [hrest, hTnil, Prod.mk.injEq]
      refine ⟨by simp [List.length_append], ?_⟩
      rw [← hd]
  rw [s4ReadFrom, s4ReadFromWithLimits, hhdr]
  simp only [defaultMaxUserIDLen, defaultMaxDomainLen]
  rw [hfield]
  have hlen8 : (s4EncodeBytes r).length = 8 + ((s4EncodeBytes r).drop 8).length := by
    rw [List.length_drop]
    have : 8 ≤ (s4EncodeBytes r).length := by
      rw [hsplit]; simp
    omega
  rw [hlen8]

/-! ## SOCKS4 reply (`socks4` Reply/Response, 8 bytes fixed) -/

/-- `socks4.Reply` (also published as `Response`): VN, CD, DSTPORT, DSTIP. -/
structure S4Reply where
  version : Nat
  code : Nat
  port : Nat
  ip0 : Nat
  ip1 : Nat
  ip2 : Nat
  ip3 : Nat
  deriving DecidableEq, Repr

/-- `Reply.Validate`. -/
def s4ReplyValidate (r : S4Reply) : Option GoErr :=
  if r.version ≠ 0 then some GoErr.invalidResponseVersion
  else if r.code = repGranted ∨ r.code = repRejected ∨ r.code = repIdentFailed ∨
      r.code = repUserIDMismatch then none
  else some GoErr.invalidResponseCode

/-- `Reply.IsGranted`. -/
def s4ReplyIsGranted (r : S4Reply) : Bool := r.code == repGranted

/-- `Reply.WriteTo` on an error-free sink: the fixed 8-byte frame. -/
def s4ReplyEncode (r : S4Reply) : List Nat :=
  [r.version, r.code, r.port / 256 % 256, r.port % 256, r.ip0, r.ip1, r.ip2, r.ip3]

/-- `Reply.ReadFrom`, also returning the state of the `Reply` struct after
the call (the Go caller's zero-valued struct is mutated only when all 8
bytes arrive).  The BIND second-phase goroutine inspects that state even
when the read failed. -/
def s4ReplyReadFromSt (S : List Nat) : Nat × Option GoErr × S4Reply :=
  match readN 8 S with
  | none => (S.length, some (eofErr S.length),
      { version := 0, code := 0, port := 0, ip0 := 0, ip1 := 0, ip2 := 0, ip3 := 0 })
  | some (hdr, _) =>
    let r : S4Reply :=
      { version := hdr.getD 0 0, code := hdr.getD 1 0,
        port := hdr.getD 2 0 * 256 + hdr.getD 3 0,
        ip0 := hdr.getD 4 0, ip1 := hdr.getD 5 0, ip2 := hdr.getD 6 0, ip3 := hdr.getD 7 0 }
    (8, s4ReplyValidate r, r)

/-- `Reply.ReadFrom` as an `io.ReaderFrom`: byte count and error-or-reply. -/
def s4ReplyReadFrom (S : List Nat) : Nat × Except GoErr S4Reply :=
  match s4ReplyReadFromSt S with
  | (n, some e, _) => (n, Except.error e)
  | (n, none, r) => (n, Except.ok r)

/-- A SOCKS4 reply that passes `Validate`, with in-range bytes. -/
@[reducible] def S4ReplyWF (r : S4Reply) : Prop :=
  r.version = 0 ∧
  (r.code = 90 ∨ r.code = 91 ∨ r.code = 92 ∨ r.code = 93) ∧
  r.port < 65536 ∧ r.ip0 < 256 ∧ r.ip1 < 256 ∧ r.ip2 < 256 ∧ r.ip3 < 256

theorem s4Reply_roundtrip (r : S4Reply) (h : S4ReplyWF r) :
    s4ReplyReadFrom (s4ReplyEncode r) = ((s4ReplyEncode r).length, Except.ok r) := by
  obtain ⟨hv, hc, hp, _, _, _, _⟩ := h
  have hval : s4ReplyValidate
      { version := r.version, code := r.code,
        port := r.port / 256 % 256 * 256 + r.port % 256,
        ip0 := r.ip0, ip1 := r.ip1, ip2 := r.ip2, ip3 := r.ip3 } = none := by
    rw [s4ReplyValidate]
    rw [if_neg (by simp [hv])]
    rw [if_pos (by simp only [repGranted, repRejected, repIdentFailed, repUserIDMismatch]; omega)]
  have hsplit : s4ReplyEncode r =
      [r.version, r.code, r.port / 256 % 256, r.port % 256, r.ip0, r.ip1, r.ip2, r.ip3] ++ [] := by
    simp [s4ReplyEncode]
  rw [s4ReplyReadFrom, s4ReplyReadFromSt, hsplit, readN_append_of_len (by rfl)]
  simp only [List.getD_cons_zero, List.getD_cons_succ, hval]
  have hport : r.port / 256 % 256 * 256 + r.port % 256 = r.port := by omega
  simp [s4ReplyEncode, hport]

/-! ## SOCKS5 constants and shared address handling (`socks5` package) -/

def socks5Version : Nat := 5
def s5CmdConnect : Nat := 1
def s5CmdBind : Nat := 2
def s5CmdUDPAssociate : Nat := 3
def s5CmdResolve : Nat := 240
def s5CmdResolvePTR : Nat := 241
def addrTypeIPv4 : Nat := 1
def addrTypeDomain : Nat := 3
def addrTypeIPv6 : Nat := 4
def authVersionUserPass : Nat := 1
def gssapiTypeAbort : Nat := 255

/-- `net.IP.To4`: a 4-byte address is returned as is, a 16-byte
IPv4-mapped address (ten zero bytes then 0xff 0xff) is shortened to its
last four bytes, anything else yields nil. -/
def goTo4 (ip : List Nat) : Option (List Nat) :=
  if ip.length = 4 then some ip
  else if ip.length = 16 ∧ ip.take 12 = [0, 0, 0, 0, 0, 0, 0, 0, 0, 0, 255, 255] then
    some (ip.drop 12)
  else none

/-- `net.IP.To16`: a 16-byte address is returned as is, a 4-byte address
is widened to its IPv4-mapped form, anything else yields nil. -/
def goTo16 (ip : List Nat) : Option (List Nat) :=
  if ip.length = 16 then some ip
  else if ip.length = 4 then some ([0, 0, 0, 0, 0, 0, 0, 0, 0, 0, 255, 255] ++ ip)
  else none

/-- The DST.ADDR bytes written by the SOCKS5 `WriteTo` implementations:
`To4` for IPv4, `To16` for IPv6 (a nil conversion writes nothing, as
`Write(nil)` does), a one-byte length prefix plus the domain bytes for
DOMAIN, and nothing for any other address type (whose switch has no
case). -/
def s5AddrEncode (atyp : Nat) (ip dom : List Nat) : List Nat :=
  if atyp = addrTypeIPv4 then (goTo4 ip).getD []
  else if atyp = addrTypeIPv6 then (goTo16 ip).getD []
  else if atyp = addrTypeDomain then dom.length :: dom
  else []

/-- The DST.ADDR read performed by the SOCKS5 `ReadFrom` implementations:
4 raw bytes for IPv4, 16 for IPv6, a 1-byte length then that many domain
bytes for DOMAIN, nothing otherwise.  Returns the bytes consumed and
either an error or `(ip, domain, rest)`. -/
def s5ReadAddr (atyp : Nat) (rest : List Nat) :
    Nat × Except GoErr (List Nat × List Nat × List Nat) :=
  if atyp = addrTypeIPv4 then
    match readN 4 rest with
    | none => (rest.length, Except.error (eofErr rest.length))
    | some (ip, rest2) => (4, Except.ok (ip, [], rest2))
  else if atyp = addrTypeIPv6 then
    match readN 16 rest with
    | none => (rest.length, Except.error (eofErr rest.length))
    | some (ip, rest2) => (16, Except.ok (ip, [], rest2))
  else if atyp = addrTypeDomain then
    match readN 1 rest with
    | none => (rest.length, Except.error (eofErr rest.length))
    | some (lnb, rest2) =>
      match readN (lnb.getD 0 0) rest2 with
      | none => (1 + rest2.length, Except.error (eofErr rest2.length))
      | some (dom, rest3) => (1 + lnb.getD 0 0, Except.ok ([], dom, rest3))
  else (0, Except.ok ([], [], rest))

theorem s5ReadAddr_ip4 {ip : List Nat} (h : ip.length = 4) (rest : List Nat) :
    s5ReadAddr addrTypeIPv4 (s5AddrEncode addrTypeIPv4 ip [] ++ rest) =
      (4, Except.ok (ip, [], rest)) := by
  rw [s5ReadAddr, if_pos rfl, s5AddrEncode, if_pos rfl, goTo4, if_pos h]
  rw [Option.getD_some, readN_append_of_len h]

theorem s5ReadAddr_ip6 {ip : List Nat} (h : ip.length = 16) (rest : List Nat) :
    s5ReadAddr addrTypeIPv6 (s5AddrEncode addrTypeIPv6 ip [] ++ rest) =
      (16, Except.ok (ip, [], rest)) := by
  rw [s5ReadAddr, if_neg (by simp [addrTypeIPv4, addrTypeIPv6]), if_pos rfl,
    s5AddrEncode, if_neg (by simp [addrTypeIPv4, addrTypeIPv6]), if_pos rfl,
    goTo16, if_pos h]
  rw [Option.getD_some, readN_append_of_len h]

theorem s5ReadAddr_dom (dom rest : List Nat) :
    s5ReadAddr addrTypeDomain (s5AddrEncode addrTypeDomain [] dom ++ rest) =
      (1 + dom.length, Except.ok ([], dom, rest)) := by
  have h13 : addrTypeDomain ≠ addrTypeIPv4 := by simp [addrTypeIPv4, addrTypeDomain]
  have h34 : addrTypeDomain ≠ addrTypeIPv6 := by simp [addrTypeIPv6, addrTypeDomain]
  rw [s5ReadAddr, if_neg h13, if_neg h34, if_pos rfl,
    s5AddrEncode, if_neg h13, if_neg h34, if_pos rfl]
  have hsplit : (dom.length :: dom) ++ rest = [dom.length] ++ (dom ++ rest) := by simp
  rw [hsplit, readN_append_of_len (by rfl)]
  simp only [List.getD_cons_zero]
  rw [readN_append_of_len rfl]

/-! ## SOCKS5 request (`socks5/request.go`) -/

/-- `socks5.Request`: VER, CMD, RSV, ATYP, destination IP or domain, port. -/
structure S5Request where
  version : Nat
  command : Nat
  reserved : Nat
  addrType : Nat
  ip : List Nat
  domain : List Nat
  port : Nat
  deriving DecidableEq, Repr

/-- `Request.ValidateHeader`. -/
def s5ValidateHeader (r : S5Request) : Option GoErr :=
  if r.version ≠ socks5Version then some GoErr.s5InvalidVersion
  else if r.reserved ≠ 0 then some GoErr.s5InvalidRSV
  else if r.command = s5CmdConnect ∨ r.command = s5CmdBind ∨ r.command = s5CmdUDPAssociate ∨
      r.command = s5CmdResolve ∨ r.command = s5CmdResolvePTR then
    if r.addrType = addrTypeIPv4 ∨ r.addrType = addrTypeDomain ∨ r.addrType = addrTypeIPv6 then
      none
    else some GoErr.s5InvalidAddr
  else some GoErr.s5InvalidCommand

/-- `Request.Validate`. -/
def s5Validate (r : S5Request) : Option GoErr :=
  match s5ValidateHeader r with
  | some e => some e
  | none =>
    if r.addrType = addrTypeDomain then
      if r.domain.length = 0 ∨ r.domain.length > 255 then some GoErr.s5InvalidDomain else none
    else
      if r.ip = [] then some GoErr.s5InvalidAddr else none

/-- `Request.WriteTo` on an error-free sink, for requests that pass the
pre-write domain-length check (the Go code refuses to write a DOMAIN
request whose domain is empty or longer than 255 before touching the
sink). -/
def s5RequestEncode (r : S5Request) : List Nat :=
  [r.version, r.command, r.reserved, r.addrType]
    ++ s5AddrEncode r.addrType r.ip r.domain
    ++ be16 r.port

/-- `Request.ReadFrom`. -/
def s5RequestReadFrom (S : List Nat) : Nat × Except GoErr S5Request :=
  match readN 4 S with
  | none => (S.length, Except.error (eofErr S.length))
  | some (hdr, rest) =>
    let r0 : S5Request :=
      { version := hdr.getD 0 0, command := hdr.getD 1 0,
        reserved := hdr.getD 2 0, addrType := hdr.getD 3 0,
        ip := [], domain := [], port := 0 }
    match s5ValidateHeader r0 with
    | some e => (4, Except.error e)
    | none =>
      match s5ReadAddr r0.addrType rest with
      | (na, Except.error e) => (4 + na, Except.error e)
      | (na, Except.ok (ip, dom, rest2)) =>
        match readN 2 rest2 with
        | none => (4 + na + rest2.length, Except.error (eofErr rest2.length))
        | some (pb, _) =>
          let r1 := { r0 with
            ip := ip
            domain := dom
            port := pb.getD 0 0 * 256 + pb.getD 1 0 }
          (4 + na + 2,
            match s5Validate r1 with
            | some e => Except.error e
            | none => Except.ok r1)

/-- Canonical well-formedness of a SOCKS5 request: valid header fields, a
canonical address representation for the address type, and in-range
numeric fields. -/
@[reducible] def S5RequestWF (r : S5Request) : Prop :=
  r.version = 5 ∧ r.reserved = 0 ∧
  (r.command = 1 ∨ r.command = 2 ∨ r.command = 3 ∨ r.command = 240 ∨ r.command = 241) ∧
  r.port < 65536 ∧ (∀ b ∈ r.ip, b < 256) ∧ (∀ b ∈ r.domain, b < 256) ∧
  (if r.addrType = 1 then r.ip.length = 4 ∧ r.domain = []
   else if r.addrType = 4 then r.ip.length = 16 ∧ r.domain = []
   else r.addrType = 3 ∧ 1 ≤ r.domain.length ∧ r.domain.length ≤ 255 ∧ r.ip = [])

theorem s5ValidateHeader_of_wf (r : S5Request) (h : S5RequestWF r) :
    s5ValidateHeader r = none := by
  obtain ⟨hv, hrsv, hc, -, -, -, haddr⟩ := h
  have hat : r.addrType = 1 ∨ r.addrType = 3 ∨ r.addrType = 4 := by
    by_cases h1 : r.addrType = 1
    · exact Or.inl h1
    · rw [if_neg h1] at haddr
      by_cases h4 : r.addrType = 4
      · exact Or.inr (Or.inr h4)
      · rw [if_neg h4] at haddr
        exact Or.inr (Or.inl haddr.1)
  rw [s5ValidateHeader]
  rw [if_neg (by simp [hv, socks5Version])]
  rw [if_neg (by simp [hrsv])]
  rw [if_pos (by
    simp only [s5CmdConnect, s5CmdBind, s5CmdUDPAssociate, s5CmdResolve, s5CmdResolvePTR]
    omega)]
  rw [if_pos (by
    simp only [addrTypeIPv4, addrTypeDomain, addrTypeIPv6]
    omega)]

theorem s5Validate_of_wf (r : S5Request) (h : S5RequestWF r) : s5Validate r = none := by
  have hh := s5ValidateHeader_of_wf r h
  obtain ⟨hv, hrsv, hc, hp, hipb, hdomb, haddr⟩ := h
  rw [s5Validate, hh]
  by_cases h3 : r.addrType = 3
  · rw [if_pos (by rw [h3]; rfl)]
    have hd : 1 ≤ r.domain.length ∧ r.domain.length ≤ 255 := by
      rw [if_neg (by omega), if_neg (by omega)] at haddr
      exact ⟨haddr.2.1, haddr.2.2.1⟩
    rw [if_neg (by omega)]
  · rw [if_neg (by
      simp only [addrTypeDomain]
      exact h3)]
    have hiplen : r.ip.length = 4 ∨ r.ip.length = 16 := by
      by_cases h1 : r.addrType = 1
      · rw [if_pos h1] at haddr; exact Or.inl haddr.1
      · rw [if_neg h1] at haddr
        by_cases h4 : r.addrType = 4
        · rw [if_pos h4] at haddr; exact Or.inr haddr.1
        · rw [if_neg h4] at haddr; exact absurd haddr.1 h3
    rw [if_neg (by
      intro hnil
      rw [hnil] at hiplen
      simp at hiplen)]

theorem s5Request_roundtrip (r : S5Request) (h : S5RequestWF r) :
    s5RequestReadFrom (s5RequestEncode r) = ((s5RequestEncode r).length, Except.ok r) := by
  have hvalr := s5Validate_of_wf r h
  obtain ⟨hv, hrsv, hc, hp, -, -, haddr⟩ := h
  have hsplit : s5RequestEncode r =
      [r.version, r.command, r.reserved, r.addrType]
        ++ (s5AddrEncode r.addrType r.ip r.domain ++ be16 r.port) := by
    simp [s5RequestEncode, List.append_assoc]
  set r0 : S5Request :=
    { version := r.version, command := r.command, reserved := r.reserved,
      addrType := r.addrType, ip := [], domain := [], port := 0 } with hr0
  have hat134 : r.addrType = 1 ∨ r.addrType = 3 ∨ r.addrType = 4 := by
    by_cases h1 : r.addrType = 1
    · exact Or.inl h1
    · rw [if_neg h1] at haddr
      by_cases h4 : r.addrType = 4
      · exact Or.inr (Or.inr h4)
      · rw [if_neg h4] at haddr
        exact Or.inr (Or.inl haddr.1)
  have hvh : s5ValidateHeader r0 = none := by
    rw [s5ValidateHeader]
    rw [if_neg (by simp [hr0, hv, socks5Version])]
    rw [if_neg (by simp [hr0, hrsv])]
    rw [if_pos (by
      simp only [hr0, s5CmdConnect, s5CmdBind, s5CmdUDPAssociate, s5CmdResolve, s5CmdResolvePTR]
      omega)]
    rw [if_pos (by
      simp only [hr0, addrTypeIPv4, addrTypeDomain, addrTypeIPv6]
      omega)]
  have hport2 : be16 r.port = [r.port / 256 % 256, r.port % 256] := rfl
  have hportval : r.port / 256 % 256 * 256 + r.port % 256 = r.port := by omega
  rw [s5RequestReadFrom, hsplit, readN_append_of_len (by rfl)]
  simp only [List.getD_cons_zero, List.getD_cons_succ, ← hr0, hvh]
  rcases hat134 with h1 | h3 | h4
  · obtain ⟨hlen, hdom⟩ : r.ip.length = 4 ∧ r.domain = [] := by
      rw [if_pos h1] at haddr; exact haddr
    rw [show r0.addrType = addrTypeIPv4 from h1, hdom, s5ReadAddr_ip4 hlen (be16 r.port)]
    simp only
    rw [hport2]
    rw [show readN 2 [r.port / 256 % 256, r.port % 256]
        = some ([r.port / 256 % 256, r.port % 256], []) from by simp [readN]]
    simp only [List.getD_cons_zero, List.getD_cons_succ, hportval]
    have hrec : S5Request.mk r.version r.command r.reserved addrTypeIPv4 r.ip [] r.port = r := by
      rw [show addrTypeIPv4 = r.addrType from h1.symm,
        show ([] : List Nat) = r.domain from hdom.symm]
    rw [hrec, hvalr]
    rw [Prod.mk.injEq]
    refine ⟨?_, rfl⟩
    simp [s5AddrEncode, addrTypeIPv4, goTo4, hlen, be16]
  · obtain ⟨-, hdlen1, hdlen255, hip⟩ :
        r.addrType = 3 ∧ 1 ≤ r.domain.length ∧ r.domain.length ≤ 255 ∧ r.ip = [] := by
      rw [if_neg (by omega), if_neg (by omega)] at haddr; exact haddr
    rw [show r0.addrType = addrTypeDomain from h3, hip, s5ReadAddr_dom r.domain (be16 r.port)]
    simp only
    rw [hport2]
    rw [show readN 2 [r.port / 256 % 256, r.port % 256]
        = some ([r.port / 256 % 256, r.port % 256], []) from by simp [readN]]
    simp only [List.getD_cons_zero, List.getD_cons_succ, hportval]
    have hrec : S5Request.mk r.version r.command r.reserved addrTypeDomain [] r.domain r.port = r := by
      rw [show addrTypeDomain = r.addrType from h3.symm,
        show ([] : List Nat) = r.ip from hip.symm]
    rw [hrec, hvalr]
    rw [Prod.mk.injEq]
    refine ⟨?_, rfl⟩
    simp [s5AddrEncode, addrTypeIPv4, addrTypeIPv6, addrTypeDomain, be16]
    omega
  · obtain ⟨hlen, hdom⟩ : r.ip.length = 16 ∧ r.domain = [] := by
      rw [if_neg (by omega), if_pos h4] at haddr; exact haddr
    rw [show r0.addrType = addrTypeIPv6 from h4, hdom, s5ReadAddr_ip6 hlen (be16 r.port)]
    simp only
    rw [hport2]
    rw [show readN 2 [r.port / 256 % 256, r.port % 256]
        = some ([r.port / 256 % 256, r.port % 256], []) from by simp [readN]]
    simp only [List.getD_cons_zero, List.getD_cons_succ, hportval]
    have hrec : S5Request.mk r.version r.command r.reserved addrTypeIPv6 r.ip [] r.port = r := by
      rw [show addrTypeIPv6 = r.addrType from h4.symm,
        show ([] : List Nat) = r.domain from hdom.symm]
    rw [hrec, hvalr]
    rw [Prod.mk.injEq]
    refine ⟨?_, rfl⟩
    simp [s5AddrEncode, addrTypeIPv4, addrTypeIPv6, goTo16, hlen, be16]

/-! ## SOCKS5 reply (`socks5` Reply) -/

/-- `socks5.Reply`: VER, REP, RSV, ATYP, bound IP or domain, port. -/
structure S5Reply where
  version : Nat
  reply : Nat
  reserved : Nat
  addrType : Nat
  ip : List Nat
  domain : List Nat
  port : Nat
  deriving DecidableEq, Repr

/-- `Reply.ValidateHeader` (the reply code itself is not checked). -/
def s5ReplyValidateHeader (r : S5Reply) : Option GoErr :=
  if r.version ≠ socks5Version then some GoErr.invalidReplyVersion
  else if r.reserved ≠ 0 then some GoErr.invalidReplyRSV
  else if r.addrType = addrTypeIPv4 ∨ r.addrType = addrTypeDomain ∨ r.addrType = addrTypeIPv6
    then none
  else some GoErr.invalidReplyAddr

/-- `Reply.Validate`. -/
def s5ReplyValidate (r : S5Reply) : Option GoErr :=
  match s5ReplyValidateHeader r with
  | some e => some e
  | none =>
    if r.addrType = addrTypeDomain then
      if r.domain.length = 0 ∨ r.domain.length > 255 then some GoErr.invalidReplyDomain else none
    else
      if r.ip = [] then some GoErr.invalidReplyAddr else none

/-- `Reply.WriteTo` on an error-free sink, for replies that pass the
`Validate` call the Go code performs before writing anything. -/
def s5ReplyEncode (r : S5Reply) : List Nat :=
  [r.version, r.reply, r.reserved, r.addrType]
    ++ s5AddrEncode r.addrType r.ip r.domain
    ++ be16 r.port

/-- `Reply.ReadFrom`. -/
def s5ReplyReadFrom (S : List Nat) : Nat × Except GoErr S5Reply :=
  match readN 4 S with
  | none => (S.length, Except.error (eofErr S.length))
  | some (hdr, rest) =>
    let r0 : S5Reply :=
      { version := hdr.getD 0 0, reply := hdr.getD 1 0,
        reserved := hdr.getD 2 0, addrType := hdr.getD 3 0,
        ip := [], domain := [], port := 0 }
    match s5ReplyValidateHeader r0 with
    | some e => (4, Except.error e)
    | none =>
      match s5ReadAddr r0.addrType rest with
      | (na, Except.error e) => (4 + na, Except.error e)
      | (na, Except.ok (ip, dom, rest2)) =>
        match readN 2 rest2 with
        | none => (4 + na + rest2.length, Except.error (eofErr rest2.length))
        | some (pb, _) =>
          let r1 := { r0 with
            ip := ip
            domain := dom
            port := pb.getD 0 0 * 256 + pb.getD 1 0 }
          (4 + na + 2,
            match s5ReplyValidate r1 with
            | some e => Except.error e
            | none => Except.ok r1)

/-- Canonical well-formedness of a SOCKS5 reply. -/
@[reducible] def S5ReplyWF (r : S5Reply) : Prop :=
  r.version = 5 ∧ r.reserved = 0 ∧ r.reply < 256 ∧
  r.port < 65536 ∧ (∀ b ∈ r.ip, b < 256) ∧ (∀ b ∈ r.domain, b < 256) ∧
  (if r.addrType = 1 then r.ip.length = 4 ∧ r.domain = []
   else if r.addrType = 4 then r.ip.length = 16 ∧ r.domain = []
   else r.addrType = 3 ∧ 1 ≤ r.domain.length ∧ r.domain.length ≤ 255 ∧ r.ip = [])

theorem s5ReplyValidateHeader_of_wf (r : S5Reply) (h : S5ReplyWF r) :
    s5ReplyValidateHeader r = none := by
  obtain ⟨hv, hrsv, -, -, -, -, haddr⟩ := h
  have hat : r.addrType = 1 ∨ r.addrType = 3 ∨ r.addrType = 4 := by
    by_cases h1 : r.addrType = 1
    · exact Or.inl h1
    · rw [if_neg h1] at haddr
      by_cases h4 : r.addrType = 4
      · exact Or.inr (Or.inr h4)
      · rw [if_neg h4] at haddr
        exact Or.inr (Or.inl haddr.1)
  rw [s5ReplyValidateHeader]
  rw [if_neg (by simp [hv, socks5Version])]
  rw [if_neg (by simp [hrsv])]
  rw [if_pos (by
    simp only [addrTypeIPv4, addrTypeDomain, addrTypeIPv6]
    omega)]

theorem s5ReplyValidate_of_wf (r : S5Reply) (h : S5ReplyWF r) : s5ReplyValidate r = none := by
  have hh := s5ReplyValidateHeader_of_wf r h
  obtain ⟨hv, hrsv, -, hp, hipb, hdomb, haddr⟩ := h
  rw [s5ReplyValidate, hh]
  by_cases h3 : r.addrType = 3
  · rw [if_pos (by rw [h3]; rfl)]
    have hd : 1 ≤ r.domain.length ∧ r.domain.length ≤ 255 := by
      rw [if_neg (by omega), if_neg (by omega)] at haddr
      exact ⟨haddr.2.1, haddr.2.2.1⟩
    rw [if_neg (by omega)]
  · rw [if_neg (by
      simp only [addrTypeDomain]
      exact h3)]
    have hiplen : r.ip.length = 4 ∨ r.ip.length = 16 := by
      by_cases h1 : r.addrType = 1
      · rw [if_pos h1] at haddr; exact Or.inl haddr.1
      · rw [if_neg h1] at haddr
        by_cases h4 : r.addrType = 4
        · rw [if_pos h4] at haddr; exact Or.inr haddr.1
        · rw [if_neg h4] at haddr; exact absurd haddr.1 h3
    rw [if_neg (by
      intro hnil
      rw [hnil] at hiplen
      simp at hiplen)]

theorem s5Reply_roundtrip (r : S5Reply) (h : S5ReplyWF r) :
    s5ReplyReadFrom (s5ReplyEncode r) = ((s5ReplyEncode r).length, Except.ok r) := by
  have hvalr := s5ReplyValidate_of_wf r h
  obtain ⟨hv, hrsv, -, hp, -, -, haddr⟩ := h
  have hsplit : s5ReplyEncode r =
      [r.version, r.reply, r.reserved, r.addrType]
        ++ (s5AddrEncode r.addrType r.ip r.domain ++ be16 r.port) := by
    simp [s5ReplyEncode, List.append_assoc]
  set r0 : S5Reply :=
    { version := r.version, reply := r.reply, reserved := r.reserved,
      addrType := r.addrType, ip := [], domain := [], port := 0 } with hr0
  have hat134 : r.addrType = 1 ∨ r.addrType = 3 ∨ r.addrType = 4 := by
    by_cases h1 : r.addrType = 1
    · exact Or.inl h1
    · rw [if_neg h1] at haddr
      by_cases h4 : r.addrType = 4
      · exact Or.inr (Or.inr h4)
      · rw [if_neg h4] at haddr
        exact Or.inr (Or.inl haddr.1)
  have hvh : s5ReplyValidateHeader r0 = none := by
    rw [s5ReplyValidateHeader]
    rw [if_neg (by simp [hr0, hv, socks5Version])]
    rw [if_neg (by simp [hr0, hrsv])]
    rw [if_pos (by
      simp only [hr0, addrTypeIPv4, addrTypeDomain, addrTypeIPv6]
      omega)]
  have hport2 : be16 r.port = [r.port / 256 % 256, r.port % 256] := rfl
  have hportval : r.port / 256 % 256 * 256 + r.port % 256 = r.port := by omega
  rw [s5ReplyReadFrom, hsplit, readN_append_of_len (by rfl)]
  simp only [List.getD_cons_zero, List.getD_cons_succ, ← hr0, hvh]
  rcases hat134 with h1 | h3 | h4
  · obtain ⟨hlen, hdom⟩ : r.ip.length = 4 ∧ r.domain = [] := by
      rw [if_pos h1] at haddr; exact haddr
    rw [show r0.addrType = addrTypeIPv4 from h1, hdom, s5ReadAddr_ip4 hlen (be16 r.port)]
    simp only
    rw [hport2]
    rw [show readN 2 [r.port / 256 % 256, r.port % 256]
        = some ([r.port / 256 % 256, r.port % 256], []) from by simp [readN]]
    simp only [List.getD_cons_zero, List.getD_cons_succ, hportval]
    have hrec : S5Reply.mk r.version r.reply r.reserved addrTypeIPv4 r.ip [] r.port = r := by
      rw [show addrTypeIPv4 = r.addrType from h1.symm,
        show ([] : List Nat) = r.domain from hdom.symm]
    rw [hrec, hvalr]
    rw [Prod.mk.injEq]
    refine ⟨?_, rfl⟩
    simp [s5AddrEncode, addrTypeIPv4, goTo4, hlen, be16]
  · obtain ⟨-, hdlen1, hdlen255, hip⟩ :
        r.addrType = 3 ∧ 1 ≤ r.domain.length ∧ r.domain.length ≤ 255 ∧ r.ip = [] := by
      rw [if_neg (by omega), if_neg (by omega)] at haddr; exact haddr
    rw [show r0.addrType = addrTypeDomain from h3, hip, s5ReadAddr_dom r.domain (be16 r.port)]
    simp only
    rw [hport2]
    rw [show readN 2 [r.port / 256 % 256, r.port % 256]
        = some ([r.port / 256 % 256, r.port % 256], []) from by simp [readN]]
    simp only [List.getD_cons_zero, List.getD_cons_succ, hportval]
    have hrec : S5Reply.mk r.version r.reply r.reserved addrTypeDomain [] r.domain r.port = r := by
      rw [show addrTypeDomain = r.addrType from h3.symm,
        show ([] : List Nat) = r.ip from hip.symm]
    rw [hrec, hvalr]
    rw [Prod.mk.injEq]
    refine ⟨?_, rfl⟩
    simp [s5AddrEncode, addrTypeIPv4, addrTypeIPv6, addrTypeDomain, be16]
    omega
  · obtain ⟨hlen, hdom⟩ : r.ip.length = 16 ∧ r.domain = [] := by
      rw [if_neg (by omega), if_pos h4] at haddr; exact haddr
    rw [show r0.addrType = addrTypeIPv6 from h4, hdom, s5ReadAddr_ip6 hlen (be16 r.port)]
    simp only
    rw [hport2]
    rw [show readN 2 [r.port / 256 % 256, r.port % 256]
        = some ([r.port / 256 % 256, r.port % 256], []) from by simp [readN]]
    simp only [List.getD_cons_zero, List.getD_cons_succ, hportval]
    have hrec : S5Reply.mk r.version r.reply r.reserved addrTypeIPv6 r.ip [] r.port = r := by
      rw [show addrTypeIPv6 = r.addrType from h4.symm,
        show ([] : List Nat) = r.domain from hdom.symm]
    rw [hrec, hvalr]
    rw [Prod.mk.injEq]
    refine ⟨?_, rfl⟩
    simp [s5AddrEncode, addrTypeIPv4, addrTypeIPv6, goTo16, hlen, be16]

/-! ## SOCKS5 handshake (`socks5/handshake_request.go` and the handshake reply) -/

/-- `socks5.HandshakeRequest`: VER, NMETHODS, METHODS. -/
structure S5HandshakeRequest where
  version : Nat
  nmethods : Nat
  methods : List Nat
  deriving DecidableEq, Repr

/-- `HandshakeRequest.Validate`. -/
def s5HandshakeValidate (h : S5HandshakeRequest) : Option GoErr :=
  if h.version ≠ socks5Version then some GoErr.invalidHandshakeVersion
  else if h.nmethods = 0 then some GoErr.noMethodsProvided
  else if h.methods.length ≠ h.nmethods then some GoErr.tooManyMethods
  else none

/-- `HandshakeRequest.WriteTo` on an error-free sink (no validation). -/
def s5HandshakeEncode (h : S5HandshakeRequest) : List Nat :=
  h.version :: h.nmethods :: h.methods

/-- `HandshakeRequest.ReadFrom`: the only check made right after the two
fixed bytes is `NMethods == 0`; the version byte is examined only by the
final `Validate`, after the methods list has been read. -/
def s5HandshakeReadFrom (S : List Nat) : Nat × Except GoErr S5HandshakeRequest :=
  match readN 2 S with
  | none => (S.length, Except.error (eofErr S.length))
  | some (hdr, rest) =>
    let v := hdr.getD 0 0
    let n := hdr.getD 1 0
    if n = 0 then (2, Except.error GoErr.noMethodsProvided)
    else
      match readN n rest with
      | none => (2 + rest.length, Except.error (eofErr rest.length))
      | some (ms, _) =>
        let h : S5HandshakeRequest := { version := v, nmethods := n, methods := ms }
        (2 + n,
          match s5HandshakeValidate h with
          | some e => Except.error e
          | none => Except.ok h)

/-- A well-formed handshake request: version 5, a consistent method count
of 1..255, method bytes in range. -/
@[reducible] def S5HandshakeRequestWF (h : S5HandshakeRequest) : Prop :=
  h.version = 5 ∧ h.nmethods = h.methods.length ∧
  1 ≤ h.methods.length ∧ h.methods.length ≤ 255 ∧ (∀ b ∈ h.methods, b < 256)

theorem s5Handshake_roundtrip (h : S5HandshakeRequest) (hw : S5HandshakeRequestWF h) :
    s5HandshakeReadFrom (s5HandshakeEncode h) =
      ((s5HandshakeEncode h).length, Except.ok h) := by
  obtain ⟨hv, hn, hn1, hn255, -⟩ := hw
  have hsplit : s5HandshakeEncode h = [h.version, h.nmethods] ++ h.methods := by
    simp [s5HandshakeEncode]
  rw [s5HandshakeReadFrom, hsplit, readN_append_of_len (by rfl)]
  simp only [List.getD_cons_zero, List.getD_cons_succ]
  rw [if_neg (by omega)]
  rw [show readN h.nmethods h.methods = some (h.methods, []) from by
    simp [readN, hn]]
  simp only
  have hval : s5HandshakeValidate
      { version := h.version, nmethods := h.nmethods, methods := h.methods } = none := by
    rw [s5HandshakeValidate]
    rw [if_neg (by simp [hv, socks5Version])]
    rw [if_neg (by simp; omega)]
    rw [if_neg (by simp [hn])]
  rw [hval]
  rw [Prod.mk.injEq]
  exact ⟨by simp; omega, rfl⟩

/-- `socks5.HandshakeReply`: VER, METHOD. -/
structure S5HandshakeReply where
  version : Nat
  method : Nat
  deriving DecidableEq, Repr

/-- `HandshakeReply.Validate`. -/
def s5HandshakeReplyValidate (h : S5HandshakeReply) : Option GoErr :=
  if h.version ≠ socks5Version then some GoErr.invalidHandshakeReplyVersion else none

/-- `HandshakeReply.WriteTo` on an error-free sink. -/
def s5HandshakeReplyEncode (h : S5HandshakeReply) : List Nat :=
  [h.version, h.method]

/-- `HandshakeReply.ReadFrom`. -/
def s5HandshakeReplyReadFrom (S : List Nat) : Nat × Except GoErr S5HandshakeReply :=
  match readN 2 S with
  | none => (S.length, Except.error (eofErr S.length))
  | some (hdr, _) =>
    let h : S5HandshakeReply := { version := hdr.getD 0 0, method := hdr.getD 1 0 }
    (2,
      match s5HandshakeReplyValidate h with
      | some e => Except.error e
      | none => Except.ok h)

/-- A well-formed handshake reply. -/
@[reducible] def S5HandshakeReplyWF (h : S5HandshakeReply) : Prop :=
  h.version = 5 ∧ h.method < 256

theorem s5HandshakeReply_roundtrip (h : S5HandshakeReply) (hw : S5HandshakeReplyWF h) :
    s5HandshakeReplyReadFrom (s5HandshakeReplyEncode h) =
      ((s5HandshakeReplyEncode h).length, Except.ok h) := by
  obtain ⟨hv, -⟩ := hw
  have hsplit : s5HandshakeReplyEncode h = [h.version, h.method] ++ [] := by
    simp [s5HandshakeReplyEncode]
  rw [s5HandshakeReplyReadFrom, hsplit, readN_append_of_len (by rfl)]
  simp only [List.getD_cons_zero, List.getD_cons_succ]
  have hval : s5HandshakeReplyValidate
      { version := h.version, method := h.method } = none := by
    rw [s5HandshakeReplyValidate, if_neg (by simp [hv, socks5Version])]
  rw [hval]
  rw [Prod.mk.injEq]
  exact ⟨by simp [s5HandshakeReplyEncode], rfl⟩

/-! ## SOCKS5 username/password sub-negotiation (`socks5` UserPassRequest/UserPassReply) -/

/-- `socks5.UserPassRequest`: VER, ULEN, UNAME, PLEN, PASSWD. -/
structure UserPassRequest where
  version : Nat
  username : List Nat
  password : List Nat
  deriving DecidableEq, Repr

/-- `UserPassRequest.Validate`. -/
def userPassValidate (r : UserPassRequest) : Option GoErr :=
  if r.version ≠ authVersionUserPass then some GoErr.invalidUserPassVersion
  else if r.username.length = 0 then some GoErr.emptyUserPassUsername
  else if r.password.length = 0 then some GoErr.emptyUserPassPassword
  else if r.username.length > 255 ∨ r.password.length > 255 then some GoErr.userPassTooLong
  else none

/-- `UserPassRequest.WriteTo` on an error-free sink, for requests that
pass the pre-write length check (≤ 255 each). -/
def userPassEncode (r : UserPassRequest) : List Nat :=
  r.version :: r.username.length :: (r.username ++ r.password.length :: r.password)

/-- `UserPassRequest.ReadFrom`: after the two fixed bytes only zero
lengths are rejected immediately; the version byte is examined only by
the final `Validate`. -/
def userPassReadFrom (S : List Nat) : Nat × Except GoErr UserPassRequest :=
  match readN 2 S with
  | none => (S.length, Except.error (eofErr S.length))
  | some (hdr, rest) =>
    let v := hdr.getD 0 0
    let ulen := hdr.getD 1 0
    if ulen = 0 then (2, Except.error GoErr.emptyUserPassUsername)
    else
      match readN ulen rest with
      | none => (2 + rest.length, Except.error (eofErr rest.length))
      | some (uname, rest2) =>
        match readN 1 rest2 with
        | none => (2 + ulen + rest2.length, Except.error (eofErr rest2.length))
        | some (plb, rest3) =>
          let plen := plb.getD 0 0
          if plen = 0 then (2 + ulen + 1, Except.error GoErr.emptyUserPassPassword)
          else
            match readN plen rest3 with
            | none => (2 + ulen + 1 + rest3.length, Except.error (eofErr rest3.length))
            | some (pw, _) =>
              let r : UserPassRequest := { version := v, username := uname, password := pw }
              (2 + ulen + 1 + plen,
                match userPassValidate r with
                | some e => Except.error e
                | none => Except.ok r)

/-- A well-formed username/password request. -/
@[reducible] def UserPassRequestWF (r : UserPassRequest) : Prop :=
  r.version = 1 ∧
  1 ≤ r.username.length ∧ r.username.length ≤ 255 ∧
  1 ≤ r.password.length ∧ r.password.length ≤ 255 ∧
  (∀ b ∈ r.username, b < 256) ∧ (∀ b ∈ r.password, b < 256)

theorem userPass_roundtrip (r : UserPassRequest) (h : UserPassRequestWF r) :
    userPassReadFrom (userPassEncode r) = ((userPassEncode r).length, Except.ok r) := by
  obtain ⟨hv, hu1, hu255, hp1, hp255, -, -⟩ := h
  have hsplit : userPassEncode r =
      [r.version, r.username.length] ++ (r.username ++ r.password.length :: r.password) := by
    simp [userPassEncode]
  rw [userPassReadFrom, hsplit, readN_append_of_len (by rfl)]
  simp only [List.getD_cons_zero, List.getD_cons_succ]
  rw [if_neg (by omega)]
  rw [readN_append_of_len rfl]
  simp only
  rw [show (r.password.length :: r.password) = [r.password.length] ++ r.password from rfl,
    readN_append_of_len (by rfl)]
  simp only [List.getD_cons_zero]
  rw [if_neg (by omega)]
  rw [show readN r.password.length r.password = some (r.password, []) from by simp [readN]]
  simp only
  have hval : userPassValidate r = none := by
    rw [userPassValidate]
    simp only [authVersionUserPass]
    rw [if_neg (by omega), if_neg (by omega), if_neg (by omega), if_neg (by omega)]
  rw [show ({ version := r.version, username := r.username, password := r.password } : UserPassRequest) = r from rfl, hval]
  rw [Prod.mk.injEq]
  exact ⟨by simp [userPassEncode]; omega, rfl⟩

/-- `socks5.UserPassReply`: VER, STATUS. -/
structure UserPassReply where
  version : Nat
  status : Nat
  deriving DecidableEq, Repr

/-- `UserPassReply.Validate`. -/
def userPassReplyValidate (r : UserPassReply) : Option GoErr :=
  if r.version ≠ authVersionUserPass then some GoErr.invalidUserPassReplyVersion else none

/-- `UserPassReply.WriteTo` on an error-free sink. -/
def userPassReplyEncode (r : UserPassReply) : List Nat :=
  [r.version, r.status]

/-- `UserPassReply.ReadFrom`. -/
def userPassReplyReadFrom (S : List Nat) : Nat × Except GoErr UserPassReply :=
  match readN 2 S with
  | none => (S.length, Except.error (eofErr S.length))
  | some (hdr, _) =>
    let r : UserPassReply := { version := hdr.getD 0 0, status := hdr.getD 1 0 }
    (2,
      match userPassReplyValidate r with
      | some e => Except.error e
      | none => Except.ok r)

/-- A well-formed username/password reply. -/
@[reducible] def UserPassReplyWF (r : UserPassReply) : Prop :=
  r.version = 1 ∧ r.status < 256

theorem userPassReply_roundtrip (r : UserPassReply) (h : UserPassReplyWF r) :
    userPassReplyReadFrom (userPassReplyEncode r) =
      ((userPassReplyEncode r).length, Except.ok r) := by
  obtain ⟨hv, -⟩ := h
  have hsplit : userPassReplyEncode r = [r.version, r.status] ++ [] := by
    simp [userPassReplyEncode]
  rw [userPassReplyReadFrom, hsplit, readN_append_of_len (by rfl)]
  simp only [List.getD_cons_zero, List.getD_cons_succ]
  have hval : userPassReplyValidate { version := r.version, status := r.status } = none := by
    rw [userPassReplyValidate, if_neg (by simp [hv, authVersionUserPass])]
  rw [hval]
  rw [Prod.mk.injEq]
  exact ⟨by simp [userPassReplyEncode], rfl⟩

/-! ## SOCKS5 GSSAPI token envelope (`socks5` GSSAPIRequest/GSSAPIReply) -/

/-- `socks5.GSSAPIRequest`: VER, MTYP, and (unless MTYP is the abort
value 0xFF) a 2-byte big-endian length and the token. -/
structure GSSAPIRequest where
  version : Nat
  msgType : Nat
  token : List Nat
  deriving DecidableEq, Repr

/-- `GSSAPIRequest.Validate`. -/
def gssapiValidate (r : GSSAPIRequest) : Option GoErr :=
  if r.version ≠ 1 then some GoErr.invalidGSSAPIVersion
  else if r.msgType = gssapiTypeAbort then none
  else if r.token.length = 0 then some GoErr.emptyGSSAPIToken
  else if r.token.length > 65535 then some GoErr.gssapiTokenTooLong
  else none

/-- `GSSAPIRequest.WriteTo` on an error-free sink, for requests that pass
the `Validate` call made before writing anything. -/
def gssapiEncode (r : GSSAPIRequest) : List Nat :=
  if r.msgType = gssapiTypeAbort then [r.version, r.msgType]
  else [r.version, r.msgType, r.token.length / 256 % 256, r.token.length % 256] ++ r.token

/-- `GSSAPIRequest.ReadFrom`: an abort message ends after the two fixed
bytes (without any validation); otherwise the length and token follow. -/
def gssapiReadFrom (S : List Nat) : Nat × Except GoErr GSSAPIRequest :=
  match readN 2 S with
  | none => (S.length, Except.error (eofErr S.length))
  | some (hdr, rest) =>
    let v := hdr.getD 0 0
    let mt := hdr.getD 1 0
    if mt = gssapiTypeAbort then
      (2, Except.ok { version := v, msgType := mt, token := [] })
    else
      match readN 2 rest with
      | none => (2 + rest.length, Except.error (eofErr rest.length))
      | some (lb, rest2) =>
        let ln := lb.getD 0 0 * 256 + lb.getD 1 0
        if ln = 0 then (4, Except.error GoErr.emptyGSSAPIToken)
        else
          match readN ln rest2 with
          | none => (4 + rest2.length, Except.error (eofErr rest2.length))
          | some (tok, _) =>
            let r : GSSAPIRequest := { version := v, msgType := mt, token := tok }
            (4 + ln,
              match gssapiValidate r with
              | some e => Except.error e
              | none => Except.ok r)

/-- A well-formed GSSAPI request: version 1, an abort carries no token,
any other message type carries 1..65535 token bytes. -/
@[reducible] def GSSAPIRequestWF (r : GSSAPIRequest) : Prop :=
  r.version = 1 ∧ r.msgType < 256 ∧
  (if r.msgType = 255 then r.token = []
   else 1 ≤ r.token.length ∧ r.token.length ≤ 65535) ∧
  (∀ b ∈ r.token, b < 256)

theorem gssapi_roundtrip (r : GSSAPIRequest) (h : GSSAPIRequestWF r) :
    gssapiReadFrom (gssapiEncode r) = ((gssapiEncode r).length, Except.ok r) := by
  obtain ⟨hv, hmt, htok, -⟩ := h
  by_cases habort : r.msgType = 255
  · have htok0 : r.token = [] := by rw [if_pos habort] at htok; exact htok
    rw [gssapiEncode, if_pos (by simp only [gssapiTypeAbort]; exact habort)]
    rw [gssapiReadFrom,
      show ([r.version, r.msgType] : List Nat) = [r.version, r.msgType] ++ [] from by simp,
      readN_append_of_len (by rfl)]
    simp only [List.getD_cons_zero, List.getD_cons_succ]
    rw [if_pos (by simp only [gssapiTypeAbort]; exact habort)]
    rw [Prod.mk.injEq]
    refine ⟨by simp, ?_⟩
    rw [show ([] : List Nat) = r.token from htok0.symm]
  · obtain ⟨ht1, ht65535⟩ : 1 ≤ r.token.length ∧ r.token.length ≤ 65535 := by
      rw [if_neg habort] at htok; exact htok
    have hlnval : r.token.length / 256 % 256 * 256 + r.token.length % 256 = r.token.length := by
      omega
    rw [gssapiEncode, if_neg (by simp only [gssapiTypeAbort]; exact habort)]
    rw [gssapiReadFrom,
      show ([r.version, r.msgType, r.token.length / 256 % 256, r.token.length % 256] ++ r.token : List Nat)
        = [r.version, r.msgType] ++ ([r.token.length / 256 % 256, r.token.length % 256] ++ r.token) from by simp,
      readN_append_of_len (by rfl)]
    simp only [List.getD_cons_zero, List.getD_cons_succ]
    rw [if_neg (by simp only [gssapiTypeAbort]; exact habort)]
    rw [readN_append_of_len (by rfl)]
    simp only [List.getD_cons_zero, List.getD_cons_succ, hlnval]
    rw [if_neg (by omega)]
    rw [show readN r.token.length r.token = some (r.token, []) from by simp [readN]]
    simp only
    have hval : gssapiValidate r = none := by
      rw [gssapiValidate]
      simp only [gssapiTypeAbort]
      rw [if_neg (by omega), if_neg habort, if_neg (by omega), if_neg (by omega)]
    rw [show ({ version := r.version, msgType := r.msgType, token := r.token } : GSSAPIRequest) = r from rfl,
      hval]
    rw [Prod.mk.injEq]
    refine ⟨?_, rfl⟩
    simp
    omega

/-- `socks5.GSSAPIReply`: the same envelope as the request, with the
reply error values. -/
structure GSSAPIReply where
  version : Nat
  msgType : Nat
  token : List Nat
  deriving DecidableEq, Repr

/-- `GSSAPIReply.Validate`. -/
def gssapiReplyValidate (r : GSSAPIReply) : Option GoErr :=
  if r.version ≠ 1 then some GoErr.invalidGSSAPIReplyVersion
  else if r.msgType = gssapiTypeAbort then none
  else if r.token.length = 0 then some GoErr.emptyGSSAPIReplyToken
  else if r.token.length > 65535 then some GoErr.gssapiReplyTooLong
  else none

/-- `GSSAPIReply.WriteTo` on an error-free sink, for replies that pass
the `Validate` call made before writing anything. -/
def gssapiReplyEncode (r : GSSAPIReply) : List Nat :=
  if r.msgType = gssapiTypeAbort then [r.version, r.msgType]
  else [r.version, r.msgType, r.token.length / 256 % 256, r.token.length % 256] ++ r.token

/-- `GSSAPIReply.ReadFrom`. -/
def gssapiReplyReadFrom (S : List Nat) : Nat × Except GoErr GSSAPIReply :=
  match readN 2 S with
  | none => (S.length, Except.error (eofErr S.length))
  | some (hdr, rest) =>
    let v := hdr.getD 0 0
    let mt := hdr.getD 1 0
    if mt = gssapiTypeAbort then
      (2, Except.ok { version := v, msgType := mt, token := [] })
    else
      match readN 2 rest with
      | none => (2 + rest.length, Except.error (eofErr rest.length))
      | some (lb, rest2) =>
        let ln := lb.getD 0 0 * 256 + lb.getD 1 0
        if ln = 0 then (4, Except.error GoErr.emptyGSSAPIReplyToken)
        else
          match readN ln rest2 with
          | none => (4 + rest2.length, Except.error (eofErr rest2.length))
          | some (tok, _) =>
            let r : GSSAPIReply := { version := v, msgType := mt, token := tok }
            (4 + ln,
              match gssapiReplyValidate r with
              | some e => Except.error e
              | none => Except.ok r)

/-- A well-formed GSSAPI reply. -/
@[reducible] def GSSAPIReplyWF (r : GSSAPIReply) : Prop :=
  r.version = 1 ∧ r.msgType < 256 ∧
  (if r.msgType = 255 then r.token = []
   else 1 ≤ r.token.length ∧ r.token.length ≤ 65535) ∧
  (∀ b ∈ r.token, b < 256)

theorem gssapiReply_roundtrip (r : GSSAPIReply) (h : GSSAPIReplyWF r) :
    gssapiReplyReadFrom (gssapiReplyEncode r) = ((gssapiReplyEncode r).length, Except.ok r) := by
  obtain ⟨hv, hmt, htok, -⟩ := h
  by_cases habort : r.msgType = 255
  · have htok0 : r.token = [] := by rw [if_pos habort] at htok; exact htok
    rw [gssapiReplyEncode, if_pos (by simp only [gssapiTypeAbort]; exact habort)]
    rw [gssapiReplyReadFrom,
      show ([r.version, r.msgType] : List Nat) = [r.version, r.msgType] ++ [] from by simp,
      readN_append_of_len (by rfl)]
    simp only [List.getD_cons_zero, List.getD_cons_succ]
    rw [if_pos (by simp only [gssapiTypeAbort]; exact habort)]
    rw [Prod.mk.injEq]
    refine ⟨by simp, ?_⟩
    rw [show ([] : List Nat) = r.token from htok0.symm]
  · obtain ⟨ht1, ht65535⟩ : 1 ≤ r.token.length ∧ r.token.length ≤ 65535 := by
      rw [if_neg habort] at htok; exact htok
    have hlnval : r.token.length / 256 % 256 * 256 + r.token.length % 256 = r.token.length := by
      omega
    rw [gssapiReplyEncode, if_neg (by simp only [gssapiTypeAbort]; exact habort)]
    rw [gssapiReplyReadFrom,
      show ([r.version, r.msgType, r.token.length / 256 % 256, r.token.length % 256] ++ r.token : List Nat)
        = [r.version, r.msgType] ++ ([r.token.length / 256 % 256, r.token.length % 256] ++ r.token) from by simp,
      readN_append_of_len (by rfl)]
    simp only [List.getD_cons_zero, List.getD_cons_succ]
    rw [if_neg (by simp only [gssapiTypeAbort]; exact habort)]
    rw [readN_append_of_len (by rfl)]
    simp only [List.getD_cons_zero, List.getD_cons_succ, hlnval]
    rw [if_neg (by omega)]
    rw [show readN r.token.length r.token = some (r.token, []) from by simp [readN]]
    simp only
    have hval : gssapiReplyValidate r = none := by
      rw [gssapiReplyValidate]
      simp only [gssapiTypeAbort]
      rw [if_neg (by omega), if_neg habort, if_neg (by omega), if_neg (by omega)]
    rw [show ({ version := r.version, msgType := r.msgType, token := r.token } : GSSAPIReply) = r from rfl,
      hval]
    rw [Prod.mk.injEq]
    refine ⟨?_, rfl⟩
    simp
    omega

/-! ## SOCKS5 UDP ASSOCIATE packet (`socks5/udp_packet.go`) -/

/-- `socks5.UDPPacket`: RSV (two bytes), FRAG, ATYP, destination IP or
domain, port, and the payload (the rest of the message). -/
structure UDPPacket where
  rsv0 : Nat
  rsv1 : Nat
  frag : Nat
  addrType : Nat
  ip : List Nat
  domain : List Nat
  port : Nat
  data : List Nat
  deriving DecidableEq, Repr

/-- `UDPPacket.ValidateHeader`. -/
def udpValidateHeader (p : UDPPacket) : Option GoErr :=
  if ¬(p.rsv0 = 0 ∧ p.rsv1 = 0) then some GoErr.invalidUDPReserved
  else if p.frag ≠ 0 then some GoErr.unsupportedFrag
  else if p.addrType = addrTypeIPv4 ∨ p.addrType = addrTypeIPv6 ∨ p.addrType = addrTypeDomain
    then none
  else some GoErr.invalidUDPAddrType

/-- `UDPPacket.Validate`. -/
def udpValidate (p : UDPPacket) : Option GoErr :=
  if ¬(p.rsv0 = 0 ∧ p.rsv1 = 0) then some GoErr.invalidUDPReserved
  else if p.frag ≠ 0 then some GoErr.unsupportedFrag
  else if p.addrType = addrTypeIPv4 ∨ p.addrType = addrTypeIPv6 then
    if p.ip = [] then some GoErr.invalidUDPAddrType
    else if p.data.length = 0 then some GoErr.missingUDPData else none
  else if p.addrType = addrTypeDomain then
    if p.domain.length = 0 ∨ p.domain.length > 255 then some GoErr.invalidUDPDomain
    else if p.data.length = 0 then some GoErr.missingUDPData else none
  else some GoErr.invalidUDPAddrType

/-- `UDPPacket.WriteTo` on an error-free sink, for packets that pass the
`Validate` call made before writing anything. -/
def udpEncode (p : UDPPacket) : List Nat :=
  [p.rsv0, p.rsv1, p.frag, p.addrType]
    ++ s5AddrEncode p.addrType p.ip p.domain
    ++ be16 p.port
    ++ p.data

/-- `UDPPacket.ReadFrom`: header, address, port, then `io.ReadAll` for
the payload, and a final `Validate`. -/
def udpReadFrom (S : List Nat) : Nat × Except GoErr UDPPacket :=
  match readN 4 S with
  | none => (S.length, Except.error (eofErr S.length))
  | some (hdr, rest) =>
    let p0 : UDPPacket :=
      { rsv0 := hdr.getD 0 0, rsv1 := hdr.getD 1 0,
        frag := hdr.getD 2 0, addrType := hdr.getD 3 0,
        ip := [], domain := [], port := 0, data := [] }
    match udpValidateHeader p0 with
    | some e => (4, Except.error e)
    | none =>
      match s5ReadAddr p0.addrType rest with
      | (na, Except.error e) => (4 + na, Except.error e)
      | (na, Except.ok (ip, dom, rest2)) =>
        match readN 2 rest2 with
        | none => (4 + na + rest2.length, Except.error (eofErr rest2.length))
        | some (pb, rest3) =>
          let p1 := { p0 with
            ip := ip
            domain := dom
            port := pb.getD 0 0 * 256 + pb.getD 1 0
            data := rest3 }
          (4 + na + 2 + rest3.length,
            match udpValidate p1 with
            | some e => Except.error e
            | none => Except.ok p1)

/-- Canonical well-formedness of a UDP packet. -/
@[reducible] def UDPPacketWF (p : UDPPacket) : Prop :=
  p.rsv0 = 0 ∧ p.rsv1 = 0 ∧ p.frag = 0 ∧
  p.port < 65536 ∧ 1 ≤ p.data.length ∧
  (∀ b ∈ p.ip, b < 256) ∧ (∀ b ∈ p.domain, b < 256) ∧ (∀ b ∈ p.data, b < 256) ∧
  (if p.addrType = 1 then p.ip.length = 4 ∧ p.domain = []
   else if p.addrType = 4 then p.ip.length = 16 ∧ p.domain = []
   else p.addrType = 3 ∧ 1 ≤ p.domain.length ∧ p.domain.length ≤ 255 ∧ p.ip = [])

theorem udp_roundtrip (p : UDPPacket) (h : UDPPacketWF p) :
    udpReadFrom (udpEncode p) = ((udpEncode p).length, Except.ok p) := by
  obtain ⟨h0, h1r, hf, hp, hd1, -, -, -, haddr⟩ := h
  have hat134 : p.addrType = 1 ∨ p.addrType = 3 ∨ p.addrType = 4 := by
    by_cases ha1 : p.addrType = 1
    · exact Or.inl ha1
    · rw [if_neg ha1] at haddr
      by_cases ha4 : p.addrType = 4
      · exact Or.inr (Or.inr ha4)
      · rw [if_neg ha4] at haddr
        exact Or.inr (Or.inl haddr.1)
  have hsplit : udpEncode p =
      [p.rsv0, p.rsv1, p.frag, p.addrType]
        ++ (s5AddrEncode p.addrType p.ip p.domain ++ (be16 p.port ++ p.data)) := by
    simp [udpEncode, List.append_assoc]
  set p0 : UDPPacket :=
    { rsv0 := p.rsv0, rsv1 := p.rsv1, frag := p.frag, addrType := p.addrType,
      ip := [], domain := [], port := 0, data := [] } with hp0
  have hvh : udpValidateHeader p0 = none := by
    rw [udpValidateHeader]
    rw [if_neg (by simp [hp0, h0, h1r])]
    rw [if_neg (by simp [hp0, hf])]
    rw [if_pos (by
      simp only [hp0, addrTypeIPv4, addrTypeDomain, addrTypeIPv6]
      omega)]
  have hport2 : be16 p.port = [p.port / 256 % 256, p.port % 256] := rfl
  have hportval : p.port / 256 % 256 * 256 + p.port % 256 = p.port := by omega
  have hportread : readN 2 ([p.port / 256 % 256, p.port % 256] ++ p.data)
      = some ([p.port / 256 % 256, p.port % 256], p.data) := readN_append_of_len (by rfl) p.data
  rw [udpReadFrom, hsplit, readN_append_of_len (by rfl)]
  simp only [List.getD_cons_zero, List.getD_cons_succ, ← hp0, hvh]
  rcases hat134 with ha1 | ha3 | ha4
  · obtain ⟨hlen, hdom⟩ : p.ip.length = 4 ∧ p.domain = [] := by
      rw [if_pos ha1] at haddr; exact haddr
    rw [show p0.addrType = addrTypeIPv4 from ha1, hdom,
      s5ReadAddr_ip4 hlen (be16 p.port ++ p.data)]
    simp only
    rw [hport2, hportread]
    simp only [List.getD_cons_zero, List.getD_cons_succ, hportval]
    have hval : udpValidate p = none := by
      rw [udpValidate]
      rw [if_neg (by simp [h0, h1r])]
      rw [if_neg (by simp [hf])]
      rw [if_pos (by simp only [addrTypeIPv4, addrTypeIPv6]; omega)]
      rw [if_neg (by
        intro hnil
        rw [hnil] at hlen
        simp at hlen)]
      rw [if_neg (by omega)]
    rw [show UDPPacket.mk p.rsv0 p.rsv1 p.frag addrTypeIPv4 p.ip [] p.port p.data = p from by
      rw [show addrTypeIPv4 = p.addrType from ha1.symm,
        show ([] : List Nat) = p.domain from hdom.symm]]
    rw [hval]
    rw [Prod.mk.injEq]
    refine ⟨?_, rfl⟩
    simp [s5AddrEncode, addrTypeIPv4, goTo4, hlen, be16]
    omega
  · obtain ⟨-, hdl1, hdl255, hip⟩ :
        p.addrType = 3 ∧ 1 ≤ p.domain.length ∧ p.domain.length ≤ 255 ∧ p.ip = [] := by
      rw [if_neg (by omega), if_neg (by omega)] at haddr; exact haddr
    rw [show p0.addrType = addrTypeDomain from ha3, hip,
      s5ReadAddr_dom p.domain (be16 p.port ++ p.data)]
    simp only
    rw [hport2, hportread]
    simp only [List.getD_cons_zero, List.getD_cons_succ, hportval]
    have hval : udpValidate p = none := by
      rw [udpValidate]
      rw [if_neg (by simp [h0, h1r])]
      rw [if_neg (by simp [hf])]
      rw [if_neg (by simp only [addrTypeIPv4, addrTypeIPv6]; omega)]
      rw [if_pos (by rw [ha3]; rfl)]
      rw [if_neg (by omega)]
      rw [if_neg (by omega)]
    rw [show UDPPacket.mk p.rsv0 p.rsv1 p.frag addrTypeDomain [] p.domain p.port p.data = p from by
      rw [show addrTypeDomain = p.addrType from ha3.symm,
        show ([] : List Nat) = p.ip from hip.symm]]
    rw [hval]
    rw [Prod.mk.injEq]
    refine ⟨?_, rfl⟩
    simp [s5AddrEncode, addrTypeIPv4, addrTypeIPv6, addrTypeDomain, be16]
    omega
  · obtain ⟨hlen, hdom⟩ : p.ip.length = 16 ∧ p.domain = [] := by
      rw [if_neg (by omega), if_pos ha4] at haddr; exact haddr
    rw [show p0.addrType = addrTypeIPv6 from ha4, hdom,
      s5ReadAddr_ip6 hlen (be16 p.port ++ p.data)]
    simp only
    rw [hport2, hportread]
    simp only [List.getD_cons_zero, List.getD_cons_succ, hportval]
    have hval : udpValidate p = none := by
      rw [udpValidate]
      rw [if_neg (by simp [h0, h1r])]
      rw [if_neg (by simp [hf])]
      rw [if_pos (by simp only [addrTypeIPv4, addrTypeIPv6]; omega)]
      rw [if_neg (by
        intro hnil
        rw [hnil] at hlen
        simp at hlen)]
      rw [if_neg (by omega)]
    rw [show UDPPacket.mk p.rsv0 p.rsv1 p.frag addrTypeIPv6 p.ip [] p.port p.data = p from by
      rw [show addrTypeIPv6 = p.addrType from ha4.symm,
        show ([] : List Nat) = p.domain from hdom.symm]]
    rw [hval]
    rw [Prod.mk.injEq]
    refine ⟨?_, rfl⟩
    simp [s5AddrEncode, addrTypeIPv4, addrTypeIPv6, goTo16, hlen, be16]
    omega

/-! ## Claim theorems -/

/-- C1 (counterexample).  The round-trip law does not hold for every
message value: a SOCKS4 request whose version byte is 0 is written
unvalidated by `WriteTo` (9 bytes), and `ReadFrom` of those bytes fails
with `ErrInvalidVersion` after the 8-byte header, returning no message
and a different byte count. -/
theorem s4_roundtrip_fails_for_invalid_version :
    s4ReadFrom (s4EncodeBytes (S4Request.mk 0 1 0 127 0 0 1 [] []))
      = (8, Except.error GoErr.invalidVersion) ∧
    (s4EncodeBytes (S4Request.mk 0 1 0 127 0 0 1 [] [])).length = 9 :=
  ⟨rfl, rfl⟩

/-- C1.  Round-trip law, amended: for every message of each of the nine
protocol message families that is valid and canonically represented —
it passes its `Validate`, its strings are within the decoder's limits
(and NUL-free for SOCKS4), its IP bytes have the canonical length for
its address type, and unused address fields are empty — encoding with
`WriteTo` and decoding the produced bytes with `ReadFrom` returns
exactly the original message, and both directions count the same number
of bytes (the length of the encoded frame). -/
theorem roundtrip_valid_messages :
    (∀ r : S4Request, S4RequestWF r →
      s4ReadFrom (s4EncodeBytes r) = ((s4EncodeBytes r).length, Except.ok r)) ∧
    (∀ r : S4Reply, S4ReplyWF r →
      s4ReplyReadFrom (s4ReplyEncode r) = ((s4ReplyEncode r).length, Except.ok r)) ∧
    (∀ h : S5HandshakeRequest, S5HandshakeRequestWF h →
      s5HandshakeReadFrom (s5HandshakeEncode h) = ((s5HandshakeEncode h).length, Except.ok h)) ∧
    (∀ h : S5HandshakeReply, S5HandshakeReplyWF h →
      s5HandshakeReplyReadFrom (s5HandshakeReplyEncode h)
        = ((s5HandshakeReplyEncode h).length, Except.ok h)) ∧
    (∀ r : S5Request, S5RequestWF r →
      s5RequestReadFrom (s5RequestEncode r) = ((s5RequestEncode r).length, Except.ok r)) ∧
    (∀ r : S5Reply, S5ReplyWF r →
      s5ReplyReadFrom (s5ReplyEncode r) = ((s5ReplyEncode r).length, Except.ok r)) ∧
    (∀ r : UserPassRequest, UserPassRequestWF r →
      userPassReadFrom (userPassEncode r) = ((userPassEncode r).length, Except.ok r)) ∧
    (∀ r : UserPassReply, UserPassReplyWF r →
      userPassReplyReadFrom (userPassReplyEncode r)
        = ((userPassReplyEncode r).length, Except.ok r)) ∧
    (∀ r : GSSAPIRequest, GSSAPIRequestWF r →
      gssapiReadFrom (gssapiEncode r) = ((gssapiEncode r).length, Except.ok r)) ∧
    (∀ r : GSSAPIReply, GSSAPIReplyWF r →
      gssapiReplyReadFrom (gssapiReplyEncode r) = ((gssapiReplyEncode r).length, Except.ok r)) ∧
    (∀ p : UDPPacket, UDPPacketWF p →
      udpReadFrom (udpEncode p) = ((udpEncode p).length, Except.ok p)) :=
  ⟨s4_roundtrip, s4Reply_roundtrip, s5Handshake_roundtrip, s5HandshakeReply_roundtrip,
    s5Request_roundtrip, s5Reply_roundtrip, userPass_roundtrip, userPassReply_roundtrip,
    gssapi_roundtrip, gssapiReply_roundtrip, udp_roundtrip⟩

/-- C1 (witness).  The round-trip theorem applied to a concrete SOCKS4a
request: CONNECT to example-style domain "ex" through 0.0.0.1:443 with
user "a". -/
theorem roundtrip_valid_messages_witness :
    S4RequestWF (S4Request.mk 4 1 443 0 0 0 1 [97] [101, 120]) ∧
    s4ReadFrom (s4EncodeBytes (S4Request.mk 4 1 443 0 0 0 1 [97] [101, 120]))
      = ((s4EncodeBytes (S4Request.mk 4 1 443 0 0 0 1 [97] [101, 120])).length,
         Except.ok (S4Request.mk 4 1 443 0 0 0 1 [97] [101, 120])) :=
  ⟨by decide, roundtrip_valid_messages.1 _ (by decide)⟩

/-- C4.  SOCKS4a classification: a request is SOCKS4a exactly when its IP
is 0.0.0.x with x ≠ 0; IP 0.0.0.1 with a non-empty domain passes domain
validation and is SOCKS4a; IP 127.0.0.1 with a non-empty domain fails
domain validation; 0.0.0.0 is never SOCKS4a; and a version-4 request with
IP 0.0.0.0 fails header validation under CONNECT but passes it under
BIND. -/
theorem socks4a_classification :
    (∀ r : S4Request, isSOCKS4a r = true ↔
      (r.ip0 = 0 ∧ r.ip1 = 0 ∧ r.ip2 = 0 ∧ r.ip3 ≠ 0)) ∧
    (∀ r : S4Request, r.ip0 = 0 → r.ip1 = 0 → r.ip2 = 0 → r.ip3 = 1 → r.domain ≠ [] →
      s4ValidateDomain r = none ∧ isSOCKS4a r = true) ∧
    (∀ r : S4Request, r.ip0 = 127 → r.ip1 = 0 → r.ip2 = 0 → r.ip3 = 1 → r.domain ≠ [] →
      s4ValidateDomain r = some GoErr.invalidDomain) ∧
    (∀ r : S4Request, r.ip0 = 0 → r.ip1 = 0 → r.ip2 = 0 → r.ip3 = 0 →
      isSOCKS4a r = false) ∧
    (∀ r : S4Request, r.version = 4 → r.ip0 = 0 → r.ip1 = 0 → r.ip2 = 0 → r.ip3 = 0 →
      (r.command = 1 → s4ValidateHeader r = some GoErr.invalidIP) ∧
      (r.command = 2 → s4ValidateHeader r = none)) := by
  refine ⟨?_, ?_, ?_, ?_, ?_⟩
  · intro r
    simp [isSOCKS4a]
    tauto
  · intro r h0 h1 h2 h3 hd
    have h4a : isSOCKS4a r = true := by simp [isSOCKS4a, h0, h1, h2, h3]
    refine ⟨?_, h4a⟩
    rw [s4ValidateDomain, if_pos h4a, if_neg (by
      simp only [List.length_eq_zero]
      exact hd)]
  · intro r h0 h1 h2 h3 hd
    have h4a : ¬(isSOCKS4a r = true) := by simp [isSOCKS4a, h0]
    rw [s4ValidateDomain, if_neg h4a, if_pos (by
      have : r.domain.length ≠ 0 := fun h => hd (List.length_eq_zero.mp h)
      omega)]
  · intro r h0 h1 h2 h3
    simp [isSOCKS4a, h3]
  · intro r hv h0 h1 h2 h3
    constructor
    · intro hc
      rw [s4ValidateHeader, if_neg (by simp [hv, socks4Version]),
        if_neg (by simp [hc, cmdConnect]),
        if_pos (by exact ⟨⟨h0, h1, h2, h3⟩, hc⟩)]
    · intro hc
      rw [s4ValidateHeader, if_neg (by simp [hv, socks4Version]),
        if_neg (by simp [hc, cmdConnect, cmdBind]),
        if_neg (by
          intro hx
          rw [cmdConnect] at hx
          omega)]

/-- C4 (witness).  The classification facts applied to concrete requests:
IP 0.0.0.1 with domain "ex", IP 127.0.0.1 with domain "ex", and IP
0.0.0.0 under CONNECT and BIND. -/
theorem socks4a_classification_witness :
    (s4ValidateDomain (S4Request.mk 4 1 80 0 0 0 1 [] [101, 120]) = none ∧
      isSOCKS4a (S4Request.mk 4 1 80 0 0 0 1 [] [101, 120]) = true) ∧
    s4ValidateDomain (S4Request.mk 4 1 80 127 0 0 1 [] [101, 120])
      = some GoErr.invalidDomain ∧
    isSOCKS4a (S4Request.mk 4 2 80 0 0 0 0 [] []) = false ∧
    s4ValidateHeader (S4Request.mk 4 1 80 0 0 0 0 [] []) = some GoErr.invalidIP ∧
    s4ValidateHeader (S4Request.mk 4 2 80 0 0 0 0 [] []) = none :=
  ⟨socks4a_classification.2.1 _ rfl rfl rfl rfl (by decide),
   socks4a_classification.2.2.1 _ rfl rfl rfl rfl (by decide),
   socks4a_classification.2.2.2.1 _ rfl rfl rfl rfl,
   (socks4a_classification.2.2.2.2 _ rfl rfl rfl rfl rfl).1 rfl,
   (socks4a_classification.2.2.2.2 _ rfl rfl rfl rfl rfl).2 rfl⟩

theorem readN_cons2 (a b : Nat) (rest : List Nat) :
    readN 2 (a :: b :: rest) = some ([a, b], rest) := by
  have h := @readN_append_of_len [a, b] 2 rfl rest
  simpa using h

theorem readN_cons4 (a b c d : Nat) (rest : List Nat) :
    readN 4 (a :: b :: c :: d :: rest) = some ([a, b, c, d], rest) := by
  have h := @readN_append_of_len [a, b, c, d] 4 rfl rest
  simpa using h

/-- C2 (counterexample).  A SOCKS5 handshake request whose version byte is
corrupted (4 instead of 5) does not fail right after the 2-byte fixed
header: decoding `[4, 1, 77]` consumes 3 bytes — the methods byte was
read — before the version error surfaces from the final `Validate`. -/
theorem handshake_bad_version_reads_methods :
    s5HandshakeReadFrom [4, 1, 77] = (3, Except.error GoErr.invalidHandshakeVersion) ∧
    (s5HandshakeReadFrom [4, 1, 77]).1 ≠ 2 :=
  ⟨rfl, by decide⟩

/-- C2.  Header-first validation, amended: the SOCKS4 request decoder and
the SOCKS5 request, reply and UDP-packet decoders validate the fixed
header immediately, failing with the header error and exactly the fixed
header's byte count, before any variable-length trailing field is read.
The SOCKS5 `HandshakeRequest` and `UserPassRequest` decoders check only
the zero-length conditions immediately after the fixed header; a wrong
version byte there is detected only by the final `Validate`, after the
variable-length fields (methods list, username, password) have been
consumed. -/
theorem header_validation_timing :
    (∀ (v : Nat) (rest : List Nat), v ≠ 4 → 7 ≤ rest.length →
      s4ReadFrom (v :: rest) = (8, Except.error GoErr.invalidVersion)) ∧
    (∀ (v : Nat) (rest : List Nat), v ≠ 5 → 3 ≤ rest.length →
      s5RequestReadFrom (v :: rest) = (4, Except.error GoErr.s5InvalidVersion)) ∧
    (∀ (v : Nat) (rest : List Nat), v ≠ 5 → 3 ≤ rest.length →
      s5ReplyReadFrom (v :: rest) = (4, Except.error GoErr.invalidReplyVersion)) ∧
    (∀ (b0 b1 fr at_ : Nat) (rest : List Nat), ¬(b0 = 0 ∧ b1 = 0) →
      udpReadFrom (b0 :: b1 :: fr :: at_ :: rest) = (4, Except.error GoErr.invalidUDPReserved)) ∧
    (∀ (v : Nat) (rest : List Nat),
      s5HandshakeReadFrom (v :: 0 :: rest) = (2, Except.error GoErr.noMethodsProvided)) ∧
    (∀ (v n : Nat) (ms rest : List Nat), v ≠ 5 → n ≠ 0 → ms.length = n →
      s5HandshakeReadFrom (v :: n :: (ms ++ rest))
        = (2 + n, Except.error GoErr.invalidHandshakeVersion)) ∧
    (∀ (v : Nat) (u pw : List Nat), v ≠ 1 →
      1 ≤ u.length → u.length ≤ 255 → 1 ≤ pw.length → pw.length ≤ 255 →
      userPassReadFrom (v :: u.length :: (u ++ pw.length :: pw))
        = (2 + u.length + 1 + pw.length, Except.error GoErr.invalidUserPassVersion)) := by
  refine ⟨?_, ?_, ?_, ?_, ?_, ?_, ?_⟩
  · intro v rest hv hlen
    rw [s4ReadFrom, s4ReadFromWithLimits, s4ReadHeaderFrom]
    rw [show readN 8 (v :: rest) = some (v :: rest.take 7, rest.drop 7) from by
      simp [readN]; omega]
    simp only [List.getD_cons_zero, List.getD_cons_succ]
    rw [show s4ValidateHeader
        { version := v, command := (rest.take 7).getD 0 0,
          port := (rest.take 7).getD 1 0 * 256 + (rest.take 7).getD 2 0,
          ip0 := (rest.take 7).getD 3 0, ip1 := (rest.take 7).getD 4 0,
          ip2 := (rest.take 7).getD 5 0, ip3 := (rest.take 7).getD 6 0,
          userID := [], domain := [] }
        = some GoErr.invalidVersion from by
      rw [s4ValidateHeader, if_pos (by simp [socks4Version]; exact hv)]]
  · intro v rest hv hlen
    rw [s5RequestReadFrom]
    rw [show readN 4 (v :: rest) = some (v :: rest.take 3, rest.drop 3) from by
      simp [readN]; omega]
    simp only [List.getD_cons_zero, List.getD_cons_succ]
    rw [show s5ValidateHeader
        { version := v, command := (rest.take 3).getD 0 0,
          reserved := (rest.take 3).getD 1 0, addrType := (rest.take 3).getD 2 0,
          ip := [], domain := [], port := 0 }
        = some GoErr.s5InvalidVersion from by
      rw [s5ValidateHeader, if_pos (by simp [socks5Version]; exact hv)]]
  · intro v rest hv hlen
    rw [s5ReplyReadFrom]
    rw [show readN 4 (v :: rest) = some (v :: rest.take 3, rest.drop 3) from by
      simp [readN]; omega]
    simp only [List.getD_cons_zero, List.getD_cons_succ]
    rw [show s5ReplyValidateHeader
        { version := v, reply := (rest.take 3).getD 0 0,
          reserved := (rest.take 3).getD 1 0, addrType := (rest.take 3).getD 2 0,
          ip := [], domain := [], port := 0 }
        = some GoErr.invalidReplyVersion from by
      rw [s5ReplyValidateHeader, if_pos (by simp [socks5Version]; exact hv)]]
  · intro b0 b1 fr at_ rest hrsv
    rw [udpReadFrom]
    rw [readN_cons4]
    simp only [List.getD_cons_zero, List.getD_cons_succ]
    rw [show udpValidateHeader
        { rsv0 := b0, rsv1 := b1, frag := fr, addrType := at_,
          ip := [], domain := [], port := 0, data := [] }
        = some GoErr.invalidUDPReserved from by
      rw [udpValidateHeader, if_pos (by exact hrsv)]]
  · intro v rest
    rw [s5HandshakeReadFrom]
    rw [readN_cons2]
    simp only [List.getD_cons_zero, List.getD_cons_succ]
    simp
  · intro v n ms rest hv hn hms
    rw [s5HandshakeReadFrom]
    rw [readN_cons2]
    simp only [List.getD_cons_zero, List.getD_cons_succ]
    rw [if_neg hn]
    rw [readN_append_of_len hms rest]
    simp only
    rw [show s5HandshakeValidate { version := v, nmethods := n, methods := ms }
        = some GoErr.invalidHandshakeVersion from by
      rw [s5HandshakeValidate, if_pos (by simp [socks5Version]; exact hv)]]
  · intro v u pw hv hu1 hu255 hp1 hp255
    rw [userPassReadFrom]
    rw [readN_cons2]
    simp only [List.getD_cons_zero, List.getD_cons_succ]
    rw [if_neg (by omega)]
    rw [readN_append_of_len rfl]
    simp only
    rw [show (pw.length :: pw) = [pw.length] ++ pw from rfl,
      readN_append_of_len (by rfl) pw]
    simp only [List.getD_cons_zero]
    rw [if_neg (by omega)]
    rw [show readN pw.length pw = some (pw, []) from by simp [readN]]
    simp only
    rw [show userPassValidate { version := v, username := u, password := pw }
        = some GoErr.invalidUserPassVersion from by
      rw [userPassValidate, if_pos (by simp [authVersionUserPass]; exact hv)]]

/-- C2 (witness).  The timing facts applied to concrete inputs: a SOCKS4
request with version 9 fails after its 8-byte header, and a handshake
with version 4 fails only after its single method byte. -/
theorem header_validation_timing_witness :
    s4ReadFrom (9 :: [1, 0, 80, 127, 0, 0, 1, 0]) = (8, Except.error GoErr.invalidVersion) ∧
    s5HandshakeReadFrom (4 :: 1 :: ([77] ++ []))
      = (2 + 1, Except.error GoErr.invalidHandshakeVersion) :=
  ⟨header_validation_timing.1 9 [1, 0, 80, 127, 0, 0, 1, 0] (by decide) (by decide),
   header_validation_timing.2.2.2.2.2.1 4 1 [77] [] (by decide) (by decide) rfl⟩

/-- A stream whose SOCKS4a domain, fed through the default limits, is
accepted at 300 bytes: header with IP 0.0.0.1, userID "u", then 300
domain bytes and the terminator.  Bytes of the domain beyond the first
fill of the scanner's 256-byte buffer are carried over from the userID
scan and are not charged against the domain's limit. -/
def c3DomainOverrunInput : List Nat :=
  [4, 1, 0, 80, 0, 0, 0, 1] ++ [117, 0] ++ List.replicate 300 100 ++ [0]

/-- C3 (counterexample).  The two failure modes of the bounded
NUL-terminated scan return the same error value, not distinct ones: with
a caller-supplied userID limit of 2, an input holding 5 non-NUL bytes
(bound exhausted before any terminator) and an input holding a single
byte (stream ended before any terminator) both make `ReadFromWithLimits`
fail with the identical `io.EOF` error. -/
theorem cstring_bound_and_stream_errors_equal :
    (s4ReadFromWithLimits ([4, 1, 0, 80, 127, 0, 0, 1] ++ [1, 1, 1, 1, 1]) 2 256).2
      = Except.error GoErr.eof ∧
    (s4ReadFromWithLimits ([4, 1, 0, 80, 127, 0, 0, 1] ++ [1]) 2 256).2
      = Except.error GoErr.eof ∧
    (s4ReadFromWithLimits ([4, 1, 0, 80, 127, 0, 0, 1] ++ [1, 1, 1, 1, 1]) 2 256).2
      = (s4ReadFromWithLimits ([4, 1, 0, 80, 127, 0, 0, 1] ++ [1]) 2 256).2 :=
  ⟨rfl, rfl, rfl⟩

set_option maxRecDepth 40000 in
/-- C3.  Bounded scanning, amended: one `ReadString` scan started with an
empty buffer collects at most `max+1` bytes (the terminator included), so
a successfully decoded field holds at most `max` bytes; every failure of
the scan — the byte budget exhausted or the stream ended — carries the
one error value `io.EOF`, so the two failure modes are not
distinguishable by the returned error; and the per-field bound does not
hold for the domain field, whose scan starts with the bytes the
userID scan left in the shared buffer: with both limits at their default
256 the concrete input `c3DomainOverrunInput` decodes successfully to a
300-byte domain. -/
theorem cstring_scan_bounds :
    (∀ (maxLen : Nat) (S col : List Nat) (err : Option GoErr) (Bl Sl : List Nat),
      readStringGo [] (maxLen + 1) S = (col, err, Bl, Sl) →
      col.length ≤ maxLen + 1 ∧ (err = none → col.dropLast.length ≤ maxLen)) ∧
    (∀ (B : List Nat) (N : Nat) (S col : List Nat) (e : GoErr) (Bl Sl : List Nat),
      readStringGo B N S = (col, some e, Bl, Sl) → e = GoErr.eof) ∧
    ((s4ReadFrom c3DomainOverrunInput).1 = 311 ∧
      (s4ReadFrom c3DomainOverrunInput).2
        = Except.ok (S4Request.mk 4 1 80 0 0 0 1 [117] (List.replicate 300 100))) := by
  refine ⟨?_, ?_, ?_, ?_⟩
  · intro maxLen S col err Bl Sl h
    rw [readStringGo] at h
    have hlen := readStrF_col_len (S.length + 1) [] (maxLen + 1) S [] col err Bl Sl h
    simp only [List.length_nil] at hlen
    refine ⟨by omega, fun _ => ?_⟩
    have := List.length_dropLast col
    omega
  · intro B N S col e Bl Sl h
    rw [readStringGo] at h
    exact readStrF_err_eof (S.length + 1) B N S [] col e Bl Sl h
  · rfl
  · rfl

/-- C3 (witness).  The scan-bound conjunct applied to the concrete run
with limit 2 over the five-byte stream `[1,1,1,1,1]`: three bytes are
collected, within the `max+1` bound. -/
theorem cstring_scan_bounds_witness :
    readStringGo [] (2 + 1) [1, 1, 1, 1, 1] = ([1, 1, 1], some GoErr.eof, [], [1, 1]) ∧
    ([1, 1, 1] : List Nat).length ≤ 2 + 1 :=
  ⟨rfl, (cstring_scan_bounds.1 2 [1, 1, 1, 1, 1] [1, 1, 1] (some GoErr.eof) [] [1, 1] rfl).1⟩



/-- A byte sink that accepts `cap` more bytes before its transport breaks
(`none`: a sink that never fails, such as `bytes.Buffer`).  A `Write`
accepts what still fits and reports an error exactly when the chunk was
cut short, as `io.Writer` requires. -/
def sinkWrite (cap : Option Nat) (chunk : List Nat) : Nat × Option Nat × Option GoErr :=
  match cap with
  | none => (chunk.length, none, none)
  | some c =>
    if chunk.length ≤ c then (chunk.length, some (c - chunk.length), none)
    else (c, some 0, some GoErr.writeErr)

/-- `writeCString` against a sink: the string bytes (the write is skipped
when the string is empty), then the NUL terminator, with the Go code's
early return on a failed write. -/
def writeCStringSink (s : List Nat) (cap : Option Nat) : Nat × Option Nat × Option GoErr :=
  match (if s.length ≠ 0 then sinkWrite cap s else (0, cap, none)) with
  | (n1, cap1, some e) => (n1, cap1, some e)
  | (n1, cap1, none) =>
    match sinkWrite cap1 [0] with
    | (n2, cap2, e) => (n1 + n2, cap2, e)

/-- `Request.WriteTo` against a sink: the 8-byte header, the USERID
c-string and, for SOCKS4a requests, the DOMAIN c-string, with the Go
code's early returns.  No field is validated. -/
def s4WriteTo (r : S4Request) (cap : Option Nat) : Nat × Option GoErr :=
  match sinkWrite cap
      [r.version, r.command, r.port / 256 % 256, r.port % 256, r.ip0, r.ip1, r.ip2, r.ip3] with
  | (n0, _, some e) => (n0, some e)
  | (n0, cap0, none) =>
    match writeCStringSink r.userID cap0 with
    | (n1, _, some e) => (n0 + n1, some e)
    | (n1, cap1, none) =>
      if isSOCKS4a r then
        match writeCStringSink r.domain cap1 with
        | (n2, _, e) => (n0 + n1 + n2, e)
      else (n0 + n1, none)

theorem writeCStringSink_unbounded (s : List Nat) :
    writeCStringSink s none = (s.length + 1, none, none) := by
  rw [writeCStringSink]
  by_cases hs : s.length ≠ 0
  · rw [if_pos hs]
    simp [sinkWrite]
  · rw [if_neg hs]
    simp only [not_not] at hs
    simp [sinkWrite, hs]

theorem writeCStringSink_bounded (s : List Nat) (c : Nat) :
    writeCStringSink s (some c)
      = (if s.length + 1 ≤ c then ((s.length + 1 : Nat), some (c - (s.length + 1)), none)
         else (min s.length c, some 0, some GoErr.writeErr)) := by
  rw [writeCStringSink]
  by_cases hs : s.length ≠ 0
  · rw [if_pos hs]
    by_cases h1 : s.length ≤ c
    · rw [show sinkWrite (some c) s = (s.length, some (c - s.length), none) from by
        rw [sinkWrite, if_pos h1]]
      simp only
      by_cases h2 : s.length + 1 ≤ c
      · rw [if_pos h2]
        rw [show sinkWrite (some (c - s.length)) [0] = (1, some (c - s.length - 1), none) from by
          rw [sinkWrite, if_pos (by simp; omega)]
          try simp]
        simp only [Prod.mk.injEq, Option.some.injEq, and_true, true_and]
        try omega
      · rw [if_neg h2]
        rw [show sinkWrite (some (c - s.length)) [0] = (c - s.length, some 0, some GoErr.writeErr) from by
          rw [sinkWrite, if_neg (by simp; omega)]
          try simp
          try omega]
        simp only [Prod.mk.injEq, and_true, true_and]
        try omega
    · rw [show sinkWrite (some c) s = (c, some 0, some GoErr.writeErr) from by
        rw [sinkWrite, if_neg h1]]
      simp only
      rw [if_neg (by omega)]
      simp only [Prod.mk.injEq, and_true, true_and]
      try omega
  · rw [if_neg hs]
    simp only [not_not] at hs
    simp only
    by_cases h2 : 1 ≤ c
    · rw [show sinkWrite (some c) [0] = (1, some (c - 1), none) from by
        rw [sinkWrite, if_pos (by simpa using h2)]
        try simp]
      rw [if_pos (by omega)]
      simp only [Prod.mk.injEq, Option.some.injEq, and_true, true_and, hs]
      try omega
    · rw [show sinkWrite (some c) [0] = (c, some 0, some GoErr.writeErr) from by
        rw [sinkWrite, if_neg (by simpa using h2)]
        try simp
        try omega]
      rw [if_neg (by omega)]
      simp only [Prod.mk.injEq, and_true, true_and]
      try omega

/-- C10.  `Request.WriteTo` validates nothing: on a sink that never
fails, every request — whatever its version, command, or embedded NUL
bytes — is written whole (frame length returned, no error); on a sink of
capacity `c` the write errs exactly when the frame does not fit, i.e.
exactly when some underlying write falls short; and a userID holding a
NUL byte is encoded unescaped, so decoding the produced frame yields a
shorter userID than was written. -/
theorem s4WriteTo_no_validation :
    (∀ r : S4Request, s4WriteTo r none = ((s4EncodeBytes r).length, none)) ∧
    (∀ (r : S4Request) (c : Nat),
      (s4WriteTo r (some c)).2 = none ↔ (s4EncodeBytes r).length ≤ c) ∧
    (s4EncodeBytes (S4Request.mk 4 1 80 127 0 0 1 [97, 0, 98] [])
      = [4, 1, 0, 80, 127, 0, 0, 1, 97, 0, 98, 0] ∧
     s4ReadFrom (s4EncodeBytes (S4Request.mk 4 1 80 127 0 0 1 [97, 0, 98] []))
      = (10, Except.ok (S4Request.mk 4 1 80 127 0 0 1 [97] [])) ∧
     (S4Request.mk 4 1 80 127 0 0 1 [97] []).userID
      ≠ (S4Request.mk 4 1 80 127 0 0 1 [97, 0, 98] []).userID) := by
  have hlen : ∀ r : S4Request, (s4EncodeBytes r).length
      = 8 + (r.userID.length + 1) + (if isSOCKS4a r then r.domain.length + 1 else 0) := by
    intro r
    by_cases h4a : isSOCKS4a r
    · simp [s4EncodeBytes, writeCString, h4a]
      try omega
    · simp [s4EncodeBytes, writeCString, h4a]
      try omega
  refine ⟨?_, ?_, rfl, rfl, by decide⟩
  · intro r
    rw [s4WriteTo]
    rw [show sinkWrite none
        [r.version, r.command, r.port / 256 % 256, r.port % 256, r.ip0, r.ip1, r.ip2, r.ip3]
        = (8, none, none) from rfl]
    simp only
    rw [writeCStringSink_unbounded]
    simp only
    by_cases h4a : isSOCKS4a r
    · rw [if_pos h4a, writeCStringSink_unbounded]
      rw [hlen r, if_pos h4a]
      try simp only [Prod.mk.injEq, and_true]
      try omega
    · rw [if_neg h4a]
      rw [hlen r, if_neg h4a]
      try simp only [Prod.mk.injEq, and_true]
      try omega
  · intro r c
    rw [s4WriteTo, hlen r]
    by_cases h8 : 8 ≤ c
    · rw [show sinkWrite (some c)
          [r.version, r.command, r.port / 256 % 256, r.port % 256, r.ip0, r.ip1, r.ip2, r.ip3]
          = (8, some (c - 8), none) from by
        rw [sinkWrite, if_pos (by simp; omega)]
        try simp]
      simp only
      rw [writeCStringSink_bounded]
      by_cases hu : r.userID.length + 1 ≤ c - 8
      · rw [if_pos hu]
        simp only
        by_cases h4a : isSOCKS4a r
        · rw [if_pos h4a, writeCStringSink_bounded]
          by_cases hd : r.domain.length + 1 ≤ c - 8 - (r.userID.length + 1)
          · rw [if_pos hd]
            simp only [if_pos h4a]
            try simp
            try omega
          · rw [if_neg hd]
            simp only [if_pos h4a]
            try simp
            try omega
        · rw [if_neg h4a]
          simp only [if_neg h4a]
          try simp
          try omega
      · rw [if_neg hu]
        simp only
        by_cases h4a : isSOCKS4a r
        · simp only [if_pos h4a]
          try simp
          try omega
        · simp only [if_neg h4a]
          try simp
          try omega
    · rw [show sinkWrite (some c)
          [r.version, r.command, r.port / 256 % 256, r.port % 256, r.ip0, r.ip1, r.ip2, r.ip3]
          = (c, some 0, some GoErr.writeErr) from by
        rw [sinkWrite, if_neg (by simp; omega)]
        try simp
        try omega]
      simp only
      by_cases h4a : isSOCKS4a r
      · simp only [if_pos h4a]
        try simp
        try omega
      · simp only [if_neg h4a]
        try simp
        try omega

/-- C10 (witness).  The unvalidated write applied to a request with
version 9, an unknown command byte and a NUL inside the userID: on an
unbounded sink it writes the whole frame with no error, and the
capacity-7 iff instance holds for it. -/
theorem s4WriteTo_no_validation_witness :
    s4WriteTo (S4Request.mk 9 77 80 127 0 0 1 [97, 0, 98] []) none
      = ((s4EncodeBytes (S4Request.mk 9 77 80 127 0 0 1 [97, 0, 98] [])).length, none) ∧
    ((s4WriteTo (S4Request.mk 9 77 80 127 0 0 1 [97, 0, 98] []) (some 7)).2 = none
      ↔ (s4EncodeBytes (S4Request.mk 9 77 80 127 0 0 1 [97, 0, 98] [])).length ≤ 7) :=
  ⟨s4WriteTo_no_validation.1 _, s4WriteTo_no_validation.2.1 _ 7⟩




/-! ## SOCKS4 dialer control flow (`socks4/dial.go`) -/

/-- The error results a `DialContext`/`BindContext` call can produce after
the proxy connection has been opened, and the values the BIND second-phase
task can send on `readyCh`.  Each constructor corresponds to one
`fmt.Errorf` site in `socks4/dial.go`; `rejected` and `rejectedFinal`
carry the numeric reply code that the format string embeds with `%02x`. -/
inductive S4DialErr where
  | invalidAddress
  | invalidPort
  | sendRequest
  | readResponse (e : GoErr)
  | rejected (code : Nat)
  | readSecondBind (e : GoErr)
  | rejectedFinal (code : Nat)
  deriving DecidableEq, Repr

/-- The outcome of each step `DialContext`/`BindContext` performs after the
proxy connection is open: whether `net.SplitHostPort` succeeds, whether
`parsePort` succeeds, whether `req.WriteTo(proxyConn)` succeeds, and the
bytes the proxy then makes available for the (first) reply. -/
structure S4DialEnv where
  splitOk : Bool
  portOk : Bool
  sendOk : Bool
  replyBytes : List Nat
  deriving DecidableEq, Repr

/-- What a `DialContext`/`BindContext` call did with the proxy connection
when it returned: whether `proxyConn.Close()` ran, whether the connection
was handed to the caller, and the error result. -/
structure S4DialOutcome where
  connClosed : Bool
  connReturned : Bool
  err : Option S4DialErr
  deriving DecidableEq, Repr

/-- `Dialer.DialContext` after the proxy connection is open: every failing
step calls `proxyConn.Close()` and returns `nil` plus the corresponding
error; only a granted reply returns the connection. -/
def s4DialContext (env : S4DialEnv) : S4DialOutcome :=
  if env.splitOk = false then
    { connClosed := true, connReturned := false, err := some S4DialErr.invalidAddress }
  else if env.portOk = false then
    { connClosed := true, connReturned := false, err := some S4DialErr.invalidPort }
  else if env.sendOk = false then
    { connClosed := true, connReturned := false, err := some S4DialErr.sendRequest }
  else
    match s4ReplyReadFromSt env.replyBytes with
    | (_, some e, _) =>
      { connClosed := true, connReturned := false, err := some (S4DialErr.readResponse e) }
    | (_, none, resp) =>
      if s4ReplyIsGranted resp then
        { connClosed := false, connReturned := true, err := none }
      else
        { connClosed := true, connReturned := false,
          err := some (S4DialErr.rejected resp.code) }

/-- The synchronous part of `Dialer.BindContext`, up to its return: the
same early-exit chain as `DialContext` over the first reply `resp1`; a
granted first reply returns the connection (with the bind address and
`readyCh`). -/
def s4BindContext (env : S4DialEnv) : S4DialOutcome :=
  if env.splitOk = false then
    { connClosed := true, connReturned := false, err := some S4DialErr.invalidAddress }
  else if env.portOk = false then
    { connClosed := true, connReturned := false, err := some S4DialErr.invalidPort }
  else if env.sendOk = false then
    { connClosed := true, connReturned := false, err := some S4DialErr.sendRequest }
  else
    match s4ReplyReadFromSt env.replyBytes with
    | (_, some e, _) =>
      { connClosed := true, connReturned := false, err := some (S4DialErr.readResponse e) }
    | (_, none, resp) =>
      if s4ReplyIsGranted resp then
        { connClosed := false, connReturned := true, err := none }
      else
        { connClosed := true, connReturned := false,
          err := some (S4DialErr.rejected resp.code) }

/-- The sequence of sends the BIND second-phase goroutine attempts on
`readyCh` (a channel of capacity 1), as a function of the bytes available
for the second reply.  The goroutine has no `return` between its sends: it
sends an error when `resp2.ReadFrom` fails, then another error when the —
possibly still zero-valued — `resp2` is not granted, then unconditionally
`nil`. -/
def bindPhase2Sends (S : List Nat) : List (Option S4DialErr) :=
  let st := s4ReplyReadFromSt S
  (match st.2.1 with
   | some e => [some (S4DialErr.readSecondBind e)]
   | none => [])
  ++ (if s4ReplyIsGranted st.2.2 then []
      else [some (S4DialErr.rejectedFinal st.2.2.code)])
  ++ [none]

/-- The two events the cancellation-watcher goroutine selects between:
the call's context being canceled, and `exitCh` being closed by the
`defer close(exitCh)` that runs when the enclosing function returns. -/
inductive WEvent where
  | ctxDone
  | exitClose
  deriving DecidableEq, Repr

/-- Whether the watcher goroutine closes the proxy connection, given the
order in which its two `select` cases become ready: the first event
decides — `ctx.Done()` first closes the connection, `exitCh` first makes
the goroutine return without closing, and any later event is never seen. -/
def watcherCloses : List WEvent → Bool
  | [] => false
  | WEvent.ctxDone :: _ => true
  | WEvent.exitClose :: _ => false


/-- C5.  After the proxy connection has been opened, every failure path of
`DialContext` and of the synchronous part of `BindContext` — target
address parse failure, port parse failure, request send failure, reply
read failure, or a non-granted reply code — closes the proxy connection
and hands no connection to the caller; and when the flow reaches a
syntactically valid but non-granted reply, the returned error embeds the
exact numeric reply code received. -/
theorem dialer_failure_closes_connection :
    (∀ env : S4DialEnv, (s4DialContext env).err ≠ none →
      (s4DialContext env).connClosed = true ∧ (s4DialContext env).connReturned = false) ∧
    (∀ env : S4DialEnv, (s4BindContext env).err ≠ none →
      (s4BindContext env).connClosed = true ∧ (s4BindContext env).connReturned = false) ∧
    (∀ env : S4DialEnv,
      env.splitOk = true → env.portOk = true → env.sendOk = true →
      (s4ReplyReadFromSt env.replyBytes).2.1 = none →
      s4ReplyIsGranted (s4ReplyReadFromSt env.replyBytes).2.2 = false →
      (s4DialContext env).err
        = some (S4DialErr.rejected (s4ReplyReadFromSt env.replyBytes).2.2.code)) := by
  refine ⟨?_, ?_, ?_⟩
  · intro env h
    rcases hsplit : env.splitOk with _ | _
    · simp [s4DialContext, hsplit]
    · rcases hport : env.portOk with _ | _
      · simp [s4DialContext, hsplit, hport]
      · rcases hsend : env.sendOk with _ | _
        · simp [s4DialContext, hsplit, hport, hsend]
        · rcases hst : s4ReplyReadFromSt env.replyBytes with ⟨n, oe, resp⟩
          rcases oe with _ | e
          · by_cases hg : s4ReplyIsGranted resp
            · exfalso
              apply h
              simp [s4DialContext, hsplit, hport, hsend, hst, hg]
            · simp [s4DialContext, hsplit, hport, hsend, hst, hg]
          · simp [s4DialContext, hsplit, hport, hsend, hst]
  · intro env h
    rcases hsplit : env.splitOk with _ | _
    · simp [s4BindContext, hsplit]
    · rcases hport : env.portOk with _ | _
      · simp [s4BindContext, hsplit, hport]
      · rcases hsend : env.sendOk with _ | _
        · simp [s4BindContext, hsplit, hport, hsend]
        · rcases hst : s4ReplyReadFromSt env.replyBytes with ⟨n, oe, resp⟩
          rcases oe with _ | e
          · by_cases hg : s4ReplyIsGranted resp
            · exfalso
              apply h
              simp [s4BindContext, hsplit, hport, hsend, hst, hg]
            · simp [s4BindContext, hsplit, hport, hsend, hst, hg]
          · simp [s4BindContext, hsplit, hport, hsend, hst]
  · intro env h1 h2 h3 h4 h5
    rcases hst : s4ReplyReadFromSt env.replyBytes with ⟨n, oe, resp⟩
    rw [hst] at h4 h5
    simp only at h4 h5
    rcases oe with _ | e
    · simp [s4DialContext, h1, h2, h3, hst, h5]
    · exact absurd h4 (by simp)

/-- C5 witness: a proxy that answers a CONNECT request with reply code 91
(rejected) makes the dialer close the connection, return no connection,
and report an error embedding code 91. -/
theorem dialer_failure_closes_connection_witness :
    (s4DialContext ⟨true, true, true, [0, 91, 0, 80, 1, 2, 3, 4]⟩).err
        = some (S4DialErr.rejected 91) ∧
    (s4DialContext ⟨true, true, true, [0, 91, 0, 80, 1, 2, 3, 4]⟩).connClosed = true ∧
    (s4DialContext ⟨true, true, true, [0, 91, 0, 80, 1, 2, 3, 4]⟩).connReturned = false := by
  have hrej := dialer_failure_closes_connection.2.2
    ⟨true, true, true, [0, 91, 0, 80, 1, 2, 3, 4]⟩ rfl rfl rfl (by decide) (by decide)
  have hclose := dialer_failure_closes_connection.1
    ⟨true, true, true, [0, 91, 0, 80, 1, 2, 3, 4]⟩ (by decide)
  exact ⟨by simpa using hrej, hclose.1, hclose.2⟩

/-- C6.  The BIND second phase does not report exactly one value on
`readyCh` in every outcome: a granted second reply produces the single
`nil` send the claim describes, but a syntactically valid non-granted
reply produces two sends (the rejection error, then `nil`, with no
`return` between them), and a failed read produces three (the read error,
then a rejection error for the still zero-valued reply, then `nil`) — on a
channel of capacity one whose reader takes at most one value. -/
theorem bind_ready_channel_multiple_sends :
    bindPhase2Sends (s4ReplyEncode ⟨0, 90, 0, 0, 0, 0, 0⟩) = [none] ∧
    bindPhase2Sends (s4ReplyEncode ⟨0, 91, 0, 0, 0, 0, 0⟩)
      = [some (S4DialErr.rejectedFinal 91), none] ∧
    bindPhase2Sends []
      = [some (S4DialErr.readSecondBind GoErr.eof),
         some (S4DialErr.rejectedFinal 0), none] := by
  refine ⟨by decide, by decide, by decide⟩

/-- C7 counterexample: the claim says a cancellation arriving after
`BindContext` has returned the tunnel to the caller still closes the
proxy connection, but returning runs `defer close(exitCh)`, whose event
dismisses the watcher: with `exitCh` closed first and the context
canceled only afterwards, the watcher closes nothing — even though the
cancellation did occur. -/
theorem watcher_after_return_cancellation :
    watcherCloses [WEvent.exitClose, WEvent.ctxDone] = false ∧
    WEvent.ctxDone ∈ [WEvent.exitClose, WEvent.ctxDone] := by
  decide

/-- C7 (amended).  The watcher closes the proxy connection exactly when
the context is canceled before the enclosing call returns (its `select`
sees `ctx.Done()` first); once the call returns, `defer close(exitCh)`
dismisses the watcher, so a later cancellation closes nothing.  When the
watcher does close the connection, the pending second-phase read fails (a
closed connection yields no reply bytes), and the second phase then sends
error values on `readyCh` rather than staying silent. -/
theorem bind_cancellation_watcher :
    (∀ es : List WEvent, watcherCloses es = true ↔ es.head? = some WEvent.ctxDone) ∧
    watcherCloses [WEvent.ctxDone] = true ∧
    (s4ReplyReadFromSt []).2.1 = some GoErr.eof ∧
    bindPhase2Sends [] ≠ [] := by
  refine ⟨?_, rfl, by decide, by decide⟩
  intro es
  match es with
  | [] => simp [watcherCloses]
  | WEvent.ctxDone :: _ => simp [watcherCloses]
  | WEvent.exitClose :: _ => simp [watcherCloses]

/-- C7 witness: with the cancellation arriving first, the watcher closes
the connection. -/
theorem bind_cancellation_watcher_witness :
    watcherCloses [WEvent.ctxDone, WEvent.exitClose] = true :=
  (bind_cancellation_watcher.1 [WEvent.ctxDone, WEvent.exitClose]).mpr rfl





/-! ## `net.ParseIP` and the dialer's SOCKS4a fallback (`socks4/dial.go`) -/

/-- One dotted-quad field as Go's `parseIPv4` accepts it: non-empty, all
decimal digits, no leading zero, value at most 255. -/
def parseV4Field (f : List Nat) : Option Nat :=
  if f = [] then none
  else if f.all (fun c => Nat.blt 47 c && Nat.blt c 58) = false then none
  else if 1 < f.length ∧ f.headD 0 = 48 then none
  else
    let v := f.foldl (fun a c => a * 10 + (c - 48)) 0
    if v ≤ 255 then some v else none

/-- Go's `parseIPv4` (the branch `net.ParseIP` takes when the first
separator in the string is a dot), returning the 16-byte IPv4-in-IPv6
representation that `net.IPv4` builds: exactly four fields separated by
dots, each accepted by `parseV4Field`. -/
def goParseIPv4 (s : List Nat) : Option (List Nat) :=
  let fs := s.splitOn 46
  if fs.length = 4 then
    match fs.mapM parseV4Field with
    | some [a, b, c, d] =>
      some ([0, 0, 0, 0, 0, 0, 0, 0, 0, 0, 255, 255] ++ [a, b, c, d])
    | _ => none
  else none

/-- `net.ParseIP`: scan for the first dot or colon; a dot dispatches to
the IPv4 parser, a colon to the IPv6 parser — taken as a parameter `v6`
here, since the dialer only depends on whether the result is nil — and a
string with neither separator yields nil. -/
def goParseIP (v6 : List Nat → Option (List Nat)) (s : List Nat) : Option (List Nat) :=
  match s.find? (fun c => c == 46 || c == 58) with
  | some 46 => goParseIPv4 s
  | some 58 => v6 s
  | _ => none

/-- The Go standard library's `parseIPv6` pinned at the one input this
development evaluates it on: the loopback literal `"::1"` (bytes
`[58, 58, 49]`) parses to the 16-byte address `0:...:0:1`; every other
input is left unparsed. -/
def v6Loopback : List Nat → Option (List Nat) := fun s =>
  if s = [58, 58, 49] then some (List.replicate 15 0 ++ [1]) else none

/-- The request `DialContext`/`BindContext` builds for the target host
`host` (the bytes of the host string): `req.Init` copies
`net.ParseIP(host).To4()` into the zero-initialised `[4]byte` IP field —
a nil `To4` copies nothing — and then the SOCKS4a fallback fires exactly
when `net.ParseIP(host)` is nil, overwriting the IP with 0.0.0.1 and
setting the domain to the host string. -/
def s4DialBuildRequest (v6 : List Nat → Option (List Nat)) (command : Nat) (port : Nat)
    (host : List Nat) (userID : List Nat) : S4Request :=
  let p := goParseIP v6 host
  let ip4 : List Nat :=
    match p with
    | none => []
    | some bs =>
      match goTo4 bs with
      | none => []
      | some q => q
  let r0 : S4Request :=
    { version := socks4Version, command := command, port := port,
      ip0 := ip4.getD 0 0, ip1 := ip4.getD 1 0, ip2 := ip4.getD 2 0, ip3 := ip4.getD 3 0,
      userID := userID, domain := [] }
  if p = none then
    { r0 with
      ip0 := 0
      ip1 := 0
      ip2 := 0
      ip3 := 1
      domain := host }
  else r0

/-- C8 counterexample: the IPv6 loopback literal `"::1"` is not a literal
IPv4 address (`parseIPv4` rejects it), yet the dialer does not build a
SOCKS4a request for it: `net.ParseIP` succeeds via the IPv6 branch, so
the fallback never fires, `To4` on the parsed address is nil so nothing
is copied into the IP field, and the request leaves with IP 0.0.0.0 and
an empty domain. -/
theorem ipv6_literal_not_socks4a :
    goParseIPv4 [58, 58, 49] = none ∧
    v6Loopback [58, 58, 49] ≠ none ∧
    (s4DialBuildRequest v6Loopback cmdConnect 80 [58, 58, 49] []).domain = [] ∧
    isSOCKS4a (s4DialBuildRequest v6Loopback cmdConnect 80 [58, 58, 49] []) = false ∧
    (s4DialBuildRequest v6Loopback cmdConnect 80 [58, 58, 49] []).ip0 = 0 ∧
    (s4DialBuildRequest v6Loopback cmdConnect 80 [58, 58, 49] []).ip3 = 0 := by
  decide

/-- C8 (amended).  The SOCKS4a fallback fires exactly when
`net.ParseIP(host)` is nil — host strings that are neither parseable IPv4
nor parseable IPv6 literals, which includes every domain name: the
request then carries IP 0.0.0.1 and the host string as its domain, with
no DNS lookup (the construction is a pure function of the host bytes).
When `net.ParseIP` succeeds the domain stays empty; for a string whose
first separator is a dot the result is decided by the IPv4 parser alone;
and `"example.com"` parses as nil, so it takes the 4a form. -/
theorem socks4a_fallback :
    (∀ v6 command port host uid,
      goParseIP v6 host = none →
      (s4DialBuildRequest v6 command port host uid).ip0 = 0 ∧
      (s4DialBuildRequest v6 command port host uid).ip1 = 0 ∧
      (s4DialBuildRequest v6 command port host uid).ip2 = 0 ∧
      (s4DialBuildRequest v6 command port host uid).ip3 = 1 ∧
      (s4DialBuildRequest v6 command port host uid).domain = host ∧
      isSOCKS4a (s4DialBuildRequest v6 command port host uid) = true) ∧
    (∀ v6 command port host uid,
      goParseIP v6 host ≠ none →
      (s4DialBuildRequest v6 command port host uid).domain = []) ∧
    (∀ v6 host, host.find? (fun c => c == 46 || c == 58) = some 46 →
      goParseIP v6 host = goParseIPv4 host) ∧
    (∀ v6, goParseIP v6 [101, 120, 97, 109, 112, 108, 101, 46, 99, 111, 109] = none) := by
  refine ⟨?_, ?_, ?_, ?_⟩
  · intro v6 command port host uid h
    simp [s4DialBuildRequest, h, isSOCKS4a]
  · intro v6 command port host uid h
    rcases hp : goParseIP v6 host with _ | bs
    · exact absurd hp h
    · simp [s4DialBuildRequest, hp]
  · intro v6 host hfind
    rw [goParseIP, hfind]
  · intro v6
    rw [goParseIP]
    rw [show ([101, 120, 97, 109, 112, 108, 101, 46, 99, 111, 109].find?
        (fun c => c == 46 || c == 58)) = some 46 from by decide]
    show goParseIPv4 [101, 120, 97, 109, 112, 108, 101, 46, 99, 111, 109] = none
    decide

/-- C8 witness: the host `"example.com"` is not an IP literal, so the
built request is in SOCKS4a form: IP 0.0.0.1 and the host bytes as its
domain. -/
theorem socks4a_fallback_witness :
    (s4DialBuildRequest v6Loopback cmdConnect 80
        [101, 120, 97, 109, 112, 108, 101, 46, 99, 111, 109] []).ip3 = 1 ∧
    (s4DialBuildRequest v6Loopback cmdConnect 80
        [101, 120, 97, 109, 112, 108, 101, 46, 99, 111, 109] []).domain
      = [101, 120, 97, 109, 112, 108, 101, 46, 99, 111, 109] := by
  have h := socks4a_fallback.1 v6Loopback cmdConnect 80
    [101, 120, 97, 109, 112, 108, 101, 46, 99, 111, 109] []
    (socks4a_fallback.2.2.2 v6Loopback)
  exact ⟨h.2.2.2.1, h.2.2.2.2.1⟩




/-! ## SOCKS4 listener per-connection handling (`ServeContext`) -/

/-- The errors the listener's per-connection path hands to `OnError`:
a failed `req.ReadFrom`, or the `unknown command: %d` error that
`OnRequestDefault` returns from its default branch.  Custom hooks are
abstracted by `hookErr`. -/
inductive ServeErr where
  | readErr (e : GoErr)
  | unknownCommand (cmd : Nat)
  | hookErr
  deriving DecidableEq, Repr

/-- What the listener did with one accepted connection: the bytes written
back to the client, the error recorded through `OnError` (none when the
handling succeeded), and whether the connection was closed — the deferred
`conn.Close()` makes that unconditional. -/
structure ServeOutcome where
  written : List Nat
  onError : Option ServeErr
  closed : Bool
  deriving DecidableEq, Repr

/-- `OnRequestDefault`: CONNECT dispatches to the `OnConnect` hook, BIND
to the `OnBind` hook, and any other command byte writes the rejected
reply `Response.Init(0, ReqRejected, 0, net.IPv4zero)` and returns the
`unknown command` error.  The hooks are parameters producing the bytes
they write and their error result. -/
def onRequestDefault (onConnect onBind : S4Request → List Nat × Option ServeErr)
    (r : S4Request) : List Nat × Option ServeErr :=
  if r.command = cmdConnect then onConnect r
  else if r.command = cmdBind then onBind r
  else
    (s4ReplyEncode (S4Reply.mk 0 repRejected 0 0 0 0 0),
      some (ServeErr.unknownCommand r.command))

/-- The per-connection goroutine of `ServeContext` (with the default
`OnAccept`, which never fails, and no read timeout): read the request
with `req.ReadFrom`; on a decode error, record it via `OnError` and
return without writing anything; otherwise run `OnRequestDefault` and
record its error, if any.  The deferred `conn.Close()` runs in every
case. -/
def serveConn (onConnect onBind : S4Request → List Nat × Option ServeErr)
    (S : List Nat) : ServeOutcome :=
  match s4ReadFrom S with
  | (_, Except.error e) =>
    { written := [], onError := some (ServeErr.readErr e), closed := true }
  | (_, Except.ok r) =>
    let wh := onRequestDefault onConnect onBind r
    { written := wh.1, onError := wh.2, closed := true }

/-- The accept loop of `ServeContext`: each accepted connection is handled
in its own goroutine, so every connection in the incoming sequence is
processed, whatever the earlier ones did. -/
def serveLoop (onConnect onBind : S4Request → List Nat × Option ServeErr)
    (conns : List (List Nat)) : List ServeOutcome :=
  conns.map (serveConn onConnect onBind)


/-- A header that passes `ValidateHeader` carries command CONNECT or BIND. -/
theorem s4ValidateHeader_none_command (r : S4Request) (h : s4ValidateHeader r = none) :
    r.command = 1 ∨ r.command = 2 := by
  rw [s4ValidateHeader] at h
  by_cases hv : r.version ≠ socks4Version
  · rw [if_pos hv] at h
    exact Option.noConfusion h
  · rw [if_neg hv] at h
    by_cases hc : r.command ≠ cmdConnect ∧ r.command ≠ cmdBind
    · rw [if_pos hc] at h
      exact Option.noConfusion h
    · push_neg at hc
      simp only [cmdConnect, cmdBind] at hc
      by_cases h1 : r.command = 1
      · exact Or.inl h1
      · exact Or.inr (hc h1)

/-- `ReadUserIDAndDomain` only changes the string fields: the command of a
successfully completed request is the command the header carried. -/
theorem s4ReadUserIDAndDomain_command (r0 r : S4Request) (S : List Nat) (mU mD : Nat)
    (h : (s4ReadUserIDAndDomain r0 S mU mD).2 = Except.ok r) :
    r.command = r0.command := by
  rw [s4ReadUserIDAndDomain] at h
  rcases h1 : readStringGo [] (mU + 1) S with ⟨col1, oe1, buf1, src1⟩
  rw [h1] at h
  rcases oe1 with _ | e
  · simp only at h
    by_cases h4a : isSOCKS4a { r0 with userID := col1.dropLast }
    · rw [if_pos h4a] at h
      rcases h2 : readStringGo buf1 (mD + 1) src1 with ⟨col2, oe2, buf2, src2⟩
      rw [h2] at h
      rcases oe2 with _ | e2
      · simp only [Except.ok.injEq] at h
        rw [← h]
      · simp at h
    · rw [if_neg h4a] at h
      simp only [Except.ok.injEq] at h
      rw [← h]
  · simp at h

/-- A request `ReadHeaderFrom` hands on passes `ValidateHeader`. -/
theorem s4ReadHeaderFrom_ok_validate (S : List Nat) (n : Nat) (r : S4Request)
    (h : s4ReadHeaderFrom S = (n, Except.ok r)) : s4ValidateHeader r = none := by
  rw [s4ReadHeaderFrom] at h
  rcases hN : readN 8 S with _ | ⟨hdr, rest⟩
  · rw [hN] at h
    simp at h
  · rw [hN] at h
    simp only [Prod.mk.injEq] at h
    rcases hval : s4ValidateHeader
        (S4Request.mk (hdr.getD 0 0) (hdr.getD 1 0) (hdr.getD 2 0 * 256 + hdr.getD 3 0)
          (hdr.getD 4 0) (hdr.getD 5 0) (hdr.getD 6 0) (hdr.getD 7 0) [] []) with _ | e
    · rw [hval] at h
      simp only [Except.ok.injEq] at h
      rw [← h.2]
      exact hval
    · rw [hval] at h
      simp at h

/-- A request `Request.ReadFrom` decodes successfully carries command
CONNECT or BIND: the header validation inside the decode guarantees it. -/
theorem s4ReadFrom_ok_command (S : List Nat) (r : S4Request)
    (h : (s4ReadFrom S).2 = Except.ok r) : r.command = 1 ∨ r.command = 2 := by
  rw [s4ReadFrom, s4ReadFromWithLimits] at h
  rcases hh : s4ReadHeaderFrom S with ⟨n1, res1⟩
  rw [hh] at h
  rcases res1 with e | r0
  · simp at h
  · simp only at h
    rcases hu : s4ReadUserIDAndDomain r0 (S.drop 8) defaultMaxUserIDLen defaultMaxDomainLen
      with ⟨n2, res2⟩
    rw [hu] at h
    simp only at h
    have hcmd : r.command = r0.command := by
      apply s4ReadUserIDAndDomain_command r0 r (S.drop 8) defaultMaxUserIDLen defaultMaxDomainLen
      rw [hu]
      exact h
    have hv : s4ValidateHeader r0 = none := s4ReadHeaderFrom_ok_validate S n1 r0 hh
    rw [hcmd]
    exact s4ValidateHeader_none_command r0 hv

/-- C9 counterexample: a connection carrying a request with command byte
3 — undefined, neither CONNECT nor BIND.  `Request.ReadFrom` validates
the header right after its 8 bytes and fails with `ErrInvalidCommand`,
so the per-connection goroutine records that error and closes the
connection without writing anything: the rejected reply the claim
promises (the frame `[0, 91, 0, 0, 0, 0, 0, 0]`) is never sent, because
`OnRequestDefault`'s rejection branch is unreachable from the listener's
own read path. -/
theorem undefined_command_writes_no_reply :
    (serveConn (fun _ => ([], none)) (fun _ => ([], none))
        [4, 3, 0, 80, 1, 2, 3, 4, 0]).written = [] ∧
    (serveConn (fun _ => ([], none)) (fun _ => ([], none))
        [4, 3, 0, 80, 1, 2, 3, 4, 0]).written ≠ [0, 91, 0, 0, 0, 0, 0, 0] ∧
    (serveConn (fun _ => ([], none)) (fun _ => ([], none))
        [4, 3, 0, 80, 1, 2, 3, 4, 0]).onError
      = some (ServeErr.readErr GoErr.invalidCommand) := by
  refine ⟨by decide, by decide, by decide⟩

/-- C9 (amended).  A connection whose request carries an undefined
command byte never reaches `OnRequestDefault`: `Request.ReadFrom`'s
header validation rejects the command, so the listener records the read
error through `OnError`, writes no reply, and closes the connection;
the accept loop handles every other connection regardless.  The
rejected-reply-plus-`unknown command`-error behaviour the claim
describes lives in `OnRequestDefault` and fires only when a request
value with an undefined command is handed to it directly (e.g. by a
custom `OnRequest` hook that skips validation). -/
theorem unknown_command_handling :
    (∀ oc ob S e, (s4ReadFrom S).2 = Except.error e →
      serveConn oc ob S
        = { written := [], onError := some (ServeErr.readErr e), closed := true }) ∧
    (∀ S, (s4ReadFrom S).2.isOk = true →
      ∀ r, (s4ReadFrom S).2 = Except.ok r → (r.command = 1 ∨ r.command = 2)) ∧
    (∀ oc ob r, r.command ≠ 1 → r.command ≠ 2 →
      onRequestDefault oc ob r
        = ([0, 91, 0, 0, 0, 0, 0, 0], some (ServeErr.unknownCommand r.command))) ∧
    (∀ oc ob conns, (serveLoop oc ob conns).length = conns.length) := by
  refine ⟨?_, ?_, ?_, ?_⟩
  · intro oc ob S e h
    rw [serveConn]
    rcases hd : s4ReadFrom S with ⟨n, res⟩
    rw [hd] at h
    simp only at h
    rw [h]
  · intro S hok r hr
    exact s4ReadFrom_ok_command S r hr
  · intro oc ob r h1 h2
    rw [onRequestDefault]
    rw [if_neg (by simpa [cmdConnect] using h1)]
    rw [if_neg (by simpa [cmdBind] using h2)]
    rfl
  · intro oc ob conns
    simp [serveLoop]

/-- C9 witness: a read error (here the undefined command byte 3, caught
by header validation) makes the listener record the error and write
nothing, and a two-connection sequence still yields two outcomes. -/
theorem unknown_command_handling_witness :
    serveConn (fun _ => ([], none)) (fun _ => ([], none)) [4, 3, 0, 80, 1, 2, 3, 4, 0]
      = { written := [], onError := some (ServeErr.readErr GoErr.invalidCommand),
          closed := true } ∧
    onRequestDefault (fun _ => ([], none)) (fun _ => ([], none))
        { version := 4, command := 7, port := 80, ip0 := 1, ip1 := 2, ip2 := 3, ip3 := 4,
          userID := [], domain := [] }
      = ([0, 91, 0, 0, 0, 0, 0, 0], some (ServeErr.unknownCommand 7)) ∧
    (serveLoop (fun _ => ([], none)) (fun _ => ([], none))
        [[4, 3, 0, 80, 1, 2, 3, 4, 0], []]).length = 2 := by
  refine ⟨?_, ?_, ?_⟩
  · exact unknown_command_handling.1 (fun _ => ([], none)) (fun _ => ([], none))
      [4, 3, 0, 80, 1, 2, 3, 4, 0] GoErr.invalidCommand (by rfl)
  · exact unknown_command_handling.2.2.1 (fun _ => ([], none)) (fun _ => ([], none))
      _ (by decide) (by decide)
  · exact unknown_command_handling.2.2.2 (fun _ => ([], none)) (fun _ => ([], none))
      [[4, 3, 0, 80, 1, 2, 3, 4, 0], []]


end Socks
